import Mathlib

/-!
# Verification of the Cura `XmlMaterialProfile` material-profile core

A shallow embedding of `plugins/XmlMaterialProfile/XmlMaterialProfile.py`:
the material-profile data model, the GUID-family mutation operations
(`setReadOnly`, `setMetaDataEntry`, `setProperty`), the XML serializer
(`serialize`, including the `_indent` pretty-printer) and the deserializer
(`deserialize`), together with theorems settling the specification's claims.

Modelling conventions:
* Python dicts become association lists with first-match lookup and
  replace-in-place-or-append update (`mlookup` / `mupdate`); dict keys are
  unique, which theorems assume through `keysNodup` hypotheses.
* Python string-or-`None` values become `Option String` (`none` = `None`).
  `str(x)` applied to such a value is `strOf` (`str(None) = "None"`).
* The `properties` sub-dictionary that the source stores under the
  `"properties"` metadata key is held in a separate `Profile.properties`
  field; operations that copy or pop the whole metadata dict act on both
  fields.
* The external container registry is a `List Profile`; definition
  containers are a `List (String × String)` of (definition id,
  manufacturer metadata).
* `xml.etree.ElementTree` trees become the `Xml` inductive.  Writing a
  tree to text and parsing it back (`tree.write` / `ET.fromstring`) is
  modelled by `etRoundTrip`, which preserves tags, attributes and child
  structure and turns empty text/tail strings into `none` (an empty
  element parses back with `text = None`).  XML namespaces are elided:
  every element of a material document lives in the single
  `http://www.ultimaker.com/material` namespace, serializer output and
  deserializer queries agree on it, and `_tag_without_namespace` makes the
  deserializer compare local names only.
-/

/-! ## Association lists (Python `dict` semantics) -/

/-- First-match association-list lookup (Python `d.get(k)` / `d[k]`). -/
def mlookup {α : Type} (m : List (String × α)) (k : String) : Option α :=
  match m with
  | [] => none
  | (k', v) :: rest => if k' = k then some v else mlookup rest k

/-- Python `d[k] = v`: replace the first binding of `k` in place, else append. -/
def mupdate {α : Type} (m : List (String × α)) (k : String) (v : α) :
    List (String × α) :=
  match m with
  | [] => [(k, v)]
  | (k', v') :: rest =>
    if k' = k then (k, v) :: rest else (k', v') :: mupdate rest k v

/-- Python `d.pop(k, default)`, the removal part: drop the first binding of `k`. -/
def eraseKey {α : Type} (m : List (String × α)) (k : String) :
    List (String × α) :=
  match m with
  | [] => []
  | (k', v') :: rest => if k' = k then rest else (k', v') :: eraseKey rest k

/-- The keys of an association list are pairwise distinct (a `dict` invariant). -/
def keysNodup {α : Type} (m : List (String × α)) : Prop :=
  (m.map Prod.fst).Nodup

instance {α : Type} (m : List (String × α)) [DecidableEq α] :
    Decidable (keysNodup m) := by
  unfold keysNodup; infer_instance

/-- `UM.Dictionary.findKey d value`: the key of the first entry whose value
equals `value`; `ValueError` (here `none`) when no entry matches. -/
def findKey (m : List (String × String)) (v : String) : Option String :=
  (m.find? (fun p => p.2 = v)).map Prod.fst

/-- Python `str` restricted to our string-or-`None` values. -/
def strOf : Option String → String
  | none => "None"
  | some s => s

/-! ## The data model -/

/-- A material profile (`XmlMaterialProfile`, an `InstanceContainer`).
`metadata` holds the string-valued metadata entries (GUID, brand, material,
color_name, base_file, variant, status, type, ...); the `properties`
sub-dictionary that the source keeps under the `"properties"` metadata key
is split into its own field.  `settings` is the container's own instances:
internal setting key ↦ the instance's `value` property. -/
structure Profile where
  id : String
  name : Option String
  metadata : List (String × Option String)
  properties : List (String × Option String)
  definitionId : String
  settings : List (String × Option String)
  readOnly : Bool
  dirty : Bool
deriving Repr, DecidableEq

/-- `getMetaDataEntry(key, default)`. -/
def metaGetD (p : Profile) (k : String) (d : Option String) : Option String :=
  (mlookup p.metadata k).getD d

/-- `addMetaDataEntry` / the unguarded base-class metadata write. -/
def metaAdd (p : Profile) (k : String) (v : Option String) : Profile :=
  { p with metadata := mupdate p.metadata k v }

/-- Registry query `findInstanceContainers(GUID = g)`: does this container's
`GUID` metadata entry (with the Python default `None`) equal `g`? -/
def sameGUID (c : Profile) (g : Option String) : Bool :=
  metaGetD c "GUID" none = g

/-- All registered family members of the GUID `g`. -/
def findByGUID (reg : List Profile) (g : Option String) : List Profile :=
  reg.filter (fun c => sameGUID c g)

/-! ## XML element trees -/

/-- An `xml.etree.ElementTree` element: tag, attributes, text (the data
before the first child), children, and tail (the data after this element's
end tag, owned by the element itself as in ElementTree). -/
inductive Xml where
  | elem (tag : String) (attrs : List (String × String))
      (text : Option String) (children : List Xml) (tail : Option String)
deriving Repr

mutual

def decEqXml : (a b : Xml) → Decidable (a = b)
  | .elem t1 a1 x1 c1 tl1, .elem t2 a2 x2 c2 tl2 =>
    if ht : t1 = t2 then
      if ha : a1 = a2 then
        if hx : x1 = x2 then
          if htl : tl1 = tl2 then
            match decEqXmlList c1 c2 with
            | isTrue hc => isTrue (by rw [ht, ha, hx, htl, hc])
            | isFalse hc => isFalse (by intro h; injection h; contradiction)
          else isFalse (by intro h; injection h; contradiction)
        else isFalse (by intro h; injection h; contradiction)
      else isFalse (by intro h; injection h; contradiction)
    else isFalse (by intro h; injection h; contradiction)

def decEqXmlList : (a b : List Xml) → Decidable (a = b)
  | [], [] => isTrue rfl
  | [], _ :: _ => isFalse (by intro h; exact List.noConfusion h)
  | _ :: _, [] => isFalse (by intro h; exact List.noConfusion h)
  | x :: xs, y :: ys =>
    match decEqXml x y, decEqXmlList xs ys with
    | isTrue h1, isTrue h2 => isTrue (by rw [h1, h2])
    | isFalse h1, _ => isFalse (by intro h; injection h; contradiction)
    | isTrue _, isFalse h2 => isFalse (by intro h; injection h; contradiction)

end

instance : DecidableEq Xml := decEqXml

def Xml.tag : Xml → String
  | .elem t _ _ _ _ => t

def Xml.attrs : Xml → List (String × String)
  | .elem _ a _ _ _ => a

def Xml.text : Xml → Option String
  | .elem _ _ x _ _ => x

def Xml.children : Xml → List Xml
  | .elem _ _ _ c _ => c

def Xml.tail : Xml → Option String
  | .elem _ _ _ _ tl => tl

/-! ## Static tables -/

/-- `__material_property_setting_map`: external XML setting name ↦ internal key. -/
def materialSettingMap : List (String × String) :=
  [("print temperature", "material_print_temperature"),
   ("heated bed temperature", "material_bed_temperature"),
   ("standby temperature", "material_standby_temperature"),
   ("print cooling", "cool_fan_speed"),
   ("retraction amount", "retraction_amount"),
   ("retraction speed", "retraction_speed")]

/-- `__product_id_map`: XML product name ↦ internal machine-definition id. -/
def productIdMap : List (String × String) :=
  [("Ultimaker2", "ultimaker2"),
   ("Ultimaker2+", "ultimaker2_plus"),
   ("Ultimaker2go", "ultimaker2_go"),
   ("Ultimaker2extended", "ultimaker2_extended"),
   ("Ultimaker2extended+", "ultimaker2_extended_plus"),
   ("Ultimaker Original", "ultimaker_original"),
   ("Ultimaker Original+", "ultimaker_original_plus")]

/-! ## GUID-family mutation operations

Each operation acts on the profile at index `i` of the registry `reg`
(the profile is a registered container, so the family scan
`findInstanceContainers(GUID = ...)` reaches it as well).  An out-of-range
index leaves the registry unchanged (Python would have no object to call
the method on). -/

/-- `XmlMaterialProfile.setReadOnly`: set the flag on the profile itself
(`super().setReadOnly`), then force `_read_only` on every registered
container sharing the profile's GUID. -/
def setReadOnlyOp (reg : List Profile) (i : Nat) (b : Bool) : List Profile :=
  match reg[i]? with
  | none => reg
  | some self =>
    let self1 : Profile := { self with readOnly := b }
    let reg1 := reg.set i self1
    let g := metaGetD self1 "GUID" none
    reg1.map (fun c => if sameGUID c g then { c with readOnly := b } else c)

/-- `XmlMaterialProfile.setMetaDataEntry`: no-op when read-only; otherwise
write the entry, rename the profile when the key is `"material"`, and push a
deep copy of the whole metadata dict (hence also the `properties` sub-map)
and, for `"material"`, the new name, to every registered family member. -/
def setMetaDataEntryOp (reg : List Profile) (i : Nat) (key : String)
    (value : Option String) : List Profile :=
  match reg[i]? with
  | none => reg
  | some self =>
    if self.readOnly then reg
    else
      let self1 : Profile := { self with metadata := mupdate self.metadata key value }
      let self2 : Profile := if key = "material" then { self1 with name := value } else self1
      let reg1 := reg.set i self2
      let g := metaGetD self2 "GUID" none
      reg1.map (fun c =>
        if sameGUID c g then
          let c1 : Profile := { c with metadata := self2.metadata,
                                       properties := self2.properties }
          if key = "material" then { c1 with name := value } else c1
        else c)

/-- `XmlMaterialProfile.setProperty`: no-op when read-only; otherwise update
the instance property (only the `"value"` property carries meaning in this
model) and mark every registered family member dirty. -/
def setPropertyOp (reg : List Profile) (i : Nat) (key propertyName : String)
    (value : Option String) : List Profile :=
  match reg[i]? with
  | none => reg
  | some self =>
    if self.readOnly then reg
    else
      let self1 : Profile :=
        { self with settings :=
            if propertyName = "value" then mupdate self.settings key value
            else self.settings }
      let reg1 := reg.set i self1
      let g := metaGetD self1 "GUID" none
      reg1.map (fun c => if sameGUID c g then { c with dirty := true } else c)

/-! ## The pretty-printer `_indent` -/

/-- Python blank test `not s or not s.strip()` on a string-or-`None`:
`None`, the empty string, and all-whitespace strings are blank. -/
def pyBlank : Option String → Bool
  | none => true
  | some s => s.toList.all Char.isWhitespace

/-- `"\n" + level * "  "`. -/
def indentStr (level : Nat) : String :=
  "\n" ++ String.join (List.replicate level "  ")

/-- Overwrite a blank tail (the post-loop fixup `_indent` applies to the
last child). -/
def fixTail (i : String) : Xml → Xml
  | .elem t a x c tl => if pyBlank tl then .elem t a x c (some i) else .elem t a x c tl

/-- Apply `fixTail` to the last element of a list. -/
def setLastTail (l : List Xml) (i : String) : List Xml :=
  match l with
  | [] => []
  | [x] => [fixTail i x]
  | x :: y :: rest => x :: setLastTail (y :: rest) i

mutual

/-- The helper `_indent(elem, level)`: normalize whitespace for
pretty-printing.  Only `text` and `tail` fields change. -/
def indentXml : Xml → Nat → Xml
  | .elem t a x [] tl, level =>
    if level ≠ 0 && pyBlank tl then .elem t a x [] (some (indentStr level))
    else .elem t a x [] tl
  | .elem t a x (c0 :: cs) tl, level =>
    let i := indentStr level
    let x1 := if pyBlank x then some (i ++ "  ") else x
    let tl1 := if pyBlank tl then some i else tl
    .elem t a x1 (setLastTail (indentXmlList (c0 :: cs) (level + 1)) i) tl1

def indentXmlList : List Xml → Nat → List Xml
  | [], _ => []
  | c :: cs, level => indentXml c level :: indentXmlList cs level

end

/-! ## The external ElementTree write / parse round trip

`serialize` ends with `tree.write(stream, "unicode", True)` and
`deserialize` begins with `ET.fromstring(serialized)`.  For a tree that
came out of the tree builder this composition preserves tags, attributes
and children, and maps empty text or tail strings to `None` (an element
with empty text is written as an empty tag). -/

def normText : Option String → Option String
  | none => none
  | some s => if s = "" then none else some s

mutual

def etRoundTrip : Xml → Xml
  | .elem t a x c tl =>
    .elem t a (normText x) (etRoundTripList c) (normText tl)

def etRoundTripList : List Xml → List Xml
  | [] => []
  | c :: cs => etRoundTrip c :: etRoundTripList cs

end

/-! ## The serializer -/

/-- The only exception the body of `serialize` can raise: a `TypeError`
from handing `None` to the tree builder (`builder.data(None)`) or writing a
`None` attribute value (a missing variant-container name). -/
inductive TErr where
  | typeError
deriving Repr, DecidableEq

/-- The exceptions `serialize` as a whole can raise. -/
inductive SerErr where
  | notImplemented
  | typeError
deriving Repr, DecidableEq

/-- `builder.data(value)`: only strings are accepted. -/
def emitData (v : Option String) : Except TErr String :=
  match v with
  | none => .error .typeError
  | some s => .ok s

/-- `builder.start(k); builder.data(v); builder.end(k)`. -/
def leafElem (k : String) (v : Option String) : Except TErr Xml := do
  let s ← emitData v
  pure (.elem k [] (some s) [] none)

/-- `_addSettingElement`: emit `<setting key="...">str(value)</setting>`
when the internal key has a reverse mapping, else emit nothing
(`ValueError` from `findKey` is swallowed). -/
def addSettingElement (instKey : String) (instVal : Option String) : Option Xml :=
  match findKey materialSettingMap instKey with
  | none => none
  | some key => some (.elem "setting" [("key", key)] (some (strOf instVal)) [] none)

/-- `getMetaDataEntry("variant")` seen through Python truthiness: `None`,
an absent entry and the empty string all count as "no variant". -/
def truthyVariant (c : Profile) : Option String :=
  match metaGetD c "variant" none with
  | none => none
  | some s => if s = "" then none else some s

/-- The two grouping dictionaries built from the GUID family
(`machine_container_map` and `machine_nozzle_map`). -/
structure Maps where
  machineMap : List (String × Profile)
  nozzleMap : List (String × List (String × Profile))
deriving Repr, DecidableEq

/-- One iteration of the grouping loop of `serialize` (lines 154-170):
skip `fdmprinter` containers; seed both maps on the first container of a
`definition_id`; a varianted container is bucketed into the nozzle map and
the loop continues; a non-varianted container overwrites the machine map. -/
def buildMapsStep (maps : Maps) (c : Profile) : Maps :=
  let d := c.definitionId
  if d = "fdmprinter" then maps
  else
    let mm := if (mlookup maps.machineMap d).isNone
              then mupdate maps.machineMap d c else maps.machineMap
    let nm := if (mlookup maps.nozzleMap d).isNone
              then mupdate maps.nozzleMap d [] else maps.nozzleMap
    match truthyVariant c with
    | some v =>
        { machineMap := mm,
          nozzleMap := mupdate nm d (mupdate ((mlookup nm d).getD []) v c) }
    | none => { machineMap := mupdate mm d c, nozzleMap := nm }

def buildMaps (family : List Profile) : Maps :=
  family.foldl buildMapsStep ⟨[], []⟩

/-- Machine-scope emission (lines 183-188): skip an instance when the
serialized root targets `fdmprinter`, has an instance for the same key and
that instance's value is equal. -/
def emitMachineSettingElem (self : Profile) (ik : String) (v : Option String) :
    Option Xml :=
  if self.definitionId = "fdmprinter" then
    match mlookup self.settings ik with
    | some w => if w = v then none else addSettingElement ik v
    | none => addSettingElement ik v
  else addSettingElement ik v

/-- Hotend-scope emission (lines 198-203): skip an instance when the
enclosing machine container has an instance for the same key with an equal
value. -/
def emitHotendSetting (container : Profile) (ik : String) (v : Option String) :
    Option Xml :=
  match mlookup container.settings ik with
  | some w => if w = v then none else addSettingElement ik v
  | none => addSettingElement ik v

/-- Emit one `<hotend>` block (lines 191-205): resolve the variant
container in the registry by id (skip the hotend when none is found), then
emit the non-suppressed settings.  Writing the hotend's `id` attribute with
a `None` display name raises `TypeError`. -/
def emitHotend (reg : List Profile) (container hotend : Profile) :
    Except TErr (List Xml) :=
  match (reg.filter (fun c => some c.id = metaGetD hotend "variant" none)).head? with
  | none => pure []
  | some vc =>
    match vc.name with
    | none => .error .typeError
    | some nm =>
      pure [Xml.elem "hotend" [("id", nm)] none
              (hotend.settings.filterMap (fun p => emitHotendSetting container p.1 p.2))
              none]

/-- Emit one `<machine>` block (lines 172-207): skip machines whose
definition id has no product name; otherwise emit the
`<machine_identifier>`, the machine-scope settings and the hotend blocks. -/
def emitMachine (defs : List (String × String)) (reg : List Profile)
    (self : Profile) (d : String) (container : Profile)
    (nozzles : List (String × Profile)) : Except TErr (List Xml) :=
  match findKey productIdMap d with
  | none => pure []
  | some product =>
    let manufacturer := (mlookup defs container.definitionId).getD ""
    let idElem := Xml.elem "machine_identifier"
      [("manufacturer", manufacturer), ("product", product)] none [] none
    let settingElems :=
      container.settings.filterMap (fun p => emitMachineSettingElem self p.1 p.2)
    do
      let hotendLists ← nozzles.mapM (fun hv => emitHotend reg container hv.2)
      pure [Xml.elem "machine" [] none
              (idElem :: (settingElems ++ hotendLists.flatten)) none]

/-- The guard of `serialize` (lines 83-88): `base_file` is truthy and
differs from the profile's own id. -/
def baseFileGuard (self : Profile) : Bool :=
  match (mlookup self.metadata "base_file").getD (some "") with
  | none => false
  | some s => s ≠ "" && self.id ≠ s

/-- The transient-key pops of `serialize` (lines 101-104): remove
`status`, `variant`, `type` and `base_file` from the metadata copy. -/
def popTransient (md : List (String × Option String)) :
    List (String × Option String) :=
  eraseKey (eraseKey (eraseKey (eraseKey md "status") "variant") "type")
    "base_file"

/-- `metadata.pop("brand", "")` (line 110). -/
def popBrand (md : List (String × Option String)) : Option String :=
  (mlookup (popTransient md) "brand").getD (some "")

/-- `metadata.pop("material", "")` (line 114). -/
def popMaterial (md : List (String × Option String)) : Option String :=
  (mlookup (eraseKey (popTransient md) "brand") "material").getD (some "")

/-- `metadata.pop("color_name", "")` (line 118). -/
def popColor (md : List (String × Option String)) : Option String :=
  (mlookup (eraseKey (eraseKey (popTransient md) "brand") "material")
    "color_name").getD (some "")

/-- The metadata entries left for the generic loop (line 124) after the
name-block pops. -/
def metadataRest (md : List (String × Option String)) :
    List (String × Option String) :=
  eraseKey (eraseKey (eraseKey (popTransient md) "brand") "material")
    "color_name"

/-- The body of `serialize` after the non-root guard (lines 90-220),
producing the pretty-printed element tree that is then written to text. -/
def serializeBody (defs : List (String × String)) (reg : List Profile)
    (self : Profile) : Except TErr Xml := do
  let brand := popBrand self.metadata
  let material := popMaterial self.metadata
  let color := popColor self.metadata
  let md4 := metadataRest self.metadata
  let brandE ← leafElem "brand" brand
  let materialE ← leafElem "material" material
  let colorE ← leafElem "color" color
  let nameE := Xml.elem "name" [] none [brandE, materialE, colorE] none
  let restE ← md4.mapM (fun p => leafElem p.1 p.2)
  let metadataE := Xml.elem "metadata" [] none (nameE :: restE) none
  let propsE ← self.properties.mapM (fun p => leafElem p.1 p.2)
  let propertiesE := Xml.elem "properties" [] none propsE none
  let globalSettings :=
    if self.definitionId = "fdmprinter" then
      self.settings.filterMap (fun p => addSettingElement p.1 p.2)
    else []
  let maps := buildMaps (findByGUID reg (metaGetD self "GUID" none))
  let machineLists ← maps.machineMap.mapM (fun dc =>
    emitMachine defs reg self dc.1 dc.2 ((mlookup maps.nozzleMap dc.1).getD []))
  let settingsE := Xml.elem "settings" [] none
    (globalSettings ++ machineLists.flatten) none
  pure (indentXml
    (Xml.elem "fdmmaterial" [("xmlns", "http://www.ultimaker.com/material")]
      none [metadataE, propertiesE, settingsE] none) 0)

/-- `XmlMaterialProfile.serialize`: raise `NotImplementedError` on a
non-root profile before building anything, otherwise build, pretty-print
and (in the source) write the tree.  The result is the element tree whose
text rendering `serialize` returns. -/
def serialize (defs : List (String × String)) (reg : List Profile)
    (self : Profile) : Except SerErr Xml :=
  if baseFileGuard self then .error .notImplemented
  else
    match serializeBody defs reg self with
    | .ok doc => .ok doc
    | .error _ => .error .typeError

/-! ## The deserializer -/

/-- Exceptions `deserialize` can raise once the document is parsed:
`attrError` is the `AttributeError` from dereferencing `.text` on a missing
`<name>` child; `valueError` is the `ValueError`/`TypeError` from
`float(...)` on a non-numeric diameter or density; `indexError` is the
`IndexError` from `findDefinitionContainers(id = "fdmprinter")[0]` when no
such definition is registered. -/
inductive DErr where
  | attrError
  | valueError
  | indexError
deriving Repr, DecidableEq

/-- Split a character list at the first occurrence of `c`. -/
def splitOnChar (c : Char) : List Char → List Char × Option (List Char)
  | [] => ([], none)
  | x :: rest =>
    if x = c then ([], some rest)
    else
      let (a, b) := splitOnChar c rest
      (x :: a, b)

def isDigitList (l : List Char) : Bool :=
  !l.isEmpty && l.all (·.isDigit)

def dropSign : List Char → List Char
  | [] => []
  | c :: rest => if c = '+' || c = '-' then rest else c :: rest

def signedDigits (l : List Char) : Bool :=
  isDigitList (dropSign l)

def mantissaOk (l : List Char) : Bool :=
  let (a, b) := splitOnChar '.' l
  match b with
  | none => isDigitList a
  | some frac =>
    (isDigitList a && (frac.isEmpty || isDigitList frac)) ||
    (a.isEmpty && isDigitList frac)

/-- Strip leading and trailing whitespace from a character list. -/
def trimChars (l : List Char) : List Char :=
  ((l.dropWhile Char.isWhitespace).reverse.dropWhile Char.isWhitespace).reverse

/-- Does Python `float(s)` succeed on the string `s`?  (Models the
external built-in: optional surrounding whitespace and sign, then a
decimal literal with optional fraction and exponent, or inf/infinity/nan.) -/
def pyFloatOk (s : String) : Bool :=
  let l := dropSign ((trimChars s.toList).map Char.toLower)
  if l = "inf".toList || l = "infinity".toList || l = "nan".toList then true
  else
    let (m, ex) := splitOnChar 'e' l
    mantissaOk m &&
      (match ex with
       | none => true
       | some e2 => signedDigits e2)

/-- `element.find("./um:T")`: the first child with local tag `T`. -/
def findChild (e : Xml) (t : String) : Option Xml :=
  e.children.find? (fun c => c.tag = t)

/-- `data.iterfind("./um:metadata/*")`. -/
def metadataEntriesOf (doc : Xml) : List Xml :=
  ((doc.children.filter (fun e => e.tag = "metadata")).map Xml.children).flatten

/-- `data.iterfind("./um:properties/*")`. -/
def propertiesEntriesOf (doc : Xml) : List Xml :=
  ((doc.children.filter (fun e => e.tag = "properties")).map Xml.children).flatten

/-- `data.iterfind("./um:settings/um:setting")`. -/
def settingEntriesOf (doc : Xml) : List Xml :=
  ((doc.children.filter (fun e => e.tag = "settings")).map
    (fun s => s.children.filter (fun e => e.tag = "setting"))).flatten

/-- `data.iterfind("./um:settings/um:machine")`. -/
def machinesOf (doc : Xml) : List Xml :=
  ((doc.children.filter (fun e => e.tag = "settings")).map
    (fun s => s.children.filter (fun e => e.tag = "machine"))).flatten

/-- One entry of the metadata walk (lines 232-248): the `<name>` block is
special-cased into name/brand/material/color_name; a missing `<brand>`,
`<material>` or `<color>` child makes the source dereference `.text` on
`None`, an `AttributeError`.  Any other tag becomes a metadata entry. -/
def metaWalkStep (p : Profile) (e : Xml) : Except DErr Profile :=
  if e.tag = "name" then
    match findChild e "brand", findChild e "material", findChild e "color" with
    | some bE, some mE, some cE =>
      .ok (metaAdd (metaAdd (metaAdd { p with name := mE.text }
            "brand" bE.text) "material" mE.text) "color_name" cE.text)
    | _, _, _ => .error .attrError
  else .ok (metaAdd p e.tag e.text)

def metaWalk (p : Profile) (es : List Xml) : Except DErr Profile :=
  es.foldl (fun acc e => acc.bind (fun q => metaWalkStep q e)) (.ok p)

/-- The properties walk (lines 256-260). -/
def propWalk (es : List Xml) : List (String × Option String) :=
  es.foldl (fun m e => mupdate m e.tag e.text) []

/-- `float(property_values.get(key, default))` for `diameter`/`density`
(lines 262-263): a stored `None` is a `TypeError`, a non-numeric string a
`ValueError`; both only ever surface as an exception here. -/
def floatCheck (pv : List (String × Option String)) (key : String) :
    Except DErr Unit :=
  match mlookup pv key with
  | none => pure ()
  | some none => .error .valueError
  | some (some s) => if pyFloatOk s then pure () else .error .valueError

/-- The overridden `setProperty` as invoked on a profile that is handled
as a value distinct from the registry entries (the profile being
deserialized or a freshly synthesized one): update the profile's own value
and dirty every registered family member. -/
def setPropertyD (reg : List Profile) (p : Profile) (key : String)
    (v : Option String) : Profile × List Profile :=
  if p.readOnly then (p, reg)
  else
    let p1 : Profile := { p with settings := mupdate p.settings key v }
    let g := metaGetD p1 "GUID" none
    (p1, reg.map (fun c => if sameGUID c g then { c with dirty := true } else c))

/-- One entry of the global settings walk (lines 271-277): map the
external key, apply it through `setProperty` and stash it in the
accumulator; unrecognised keys are logged and skipped. -/
def globalStep
    (acc : Profile × List Profile × List (String × Option String))
    (e : Xml) : Profile × List Profile × List (String × Option String) :=
  match mlookup e.attrs "key" with
  | none => acc
  | some k =>
    match mlookup materialSettingMap k with
    | none => acc
    | some ik =>
      let r := setPropertyD acc.2.1 acc.1 ik e.text
      (r.1, r.2, mupdate acc.2.2 ik e.text)

/-- The global settings walk (lines 269-278). -/
def globalWalk (reg : List Profile) (p : Profile) (es : List Xml) :
    Profile × List Profile × List (String × Option String) :=
  es.foldl globalStep (p, reg, [])

/-- The machine-scope setting accumulator of one `<machine>` (lines 283-290). -/
def machineSettingVals (m : Xml) : List (String × Option String) :=
  (m.children.filter (fun e => e.tag = "setting")).foldl (fun msv e =>
    match mlookup e.attrs "key" with
    | none => msv
    | some k =>
      match mlookup materialSettingMap k with
      | none => msv
      | some ik => mupdate msv ik e.text) []

/-- Apply a list of accumulated (key, value) settings via `setProperty`. -/
def applyAll (reg : List Profile) (p : Profile)
    (kvs : List (String × Option String)) : Profile × List Profile :=
  kvs.foldl (fun a kv => setPropertyD a.2 a.1 kv.1 kv.2) (p, reg)

/-- Apply a hotend's own `<setting>` children (lines 351-357). -/
def applyHotendSettings (reg : List Profile) (p : Profile) (es : List Xml) :
    Profile × List Profile :=
  es.foldl (fun a e =>
    match mlookup e.attrs "key" with
    | none => a
    | some k =>
      match mlookup materialSettingMap k with
      | none => a
      | some ik => setPropertyD a.2 a.1 ik e.text) (p, reg)

/-- `hotend_id.replace(" ", "_")` (single-character pattern). -/
def replaceSpaces (s : String) : String :=
  String.mk (s.toList.map (fun c => if c = ' ' then '_' else c))

/-- Process one `<hotend>` inside a resolved machine (lines 322-360):
resolve the variant container by id, falling back to a search by
definition and display name; skip silently when unresolved; otherwise
synthesize and register the hotend profile. -/
def processHotend (selfP : Profile) (machineId : String)
    (gsv msv : List (String × Option String)) (reg : List Profile) (h : Xml) :
    List Profile :=
  match mlookup h.attrs "id" with
  | none => reg
  | some hotendId =>
    let vcs := reg.filter (fun c => c.id = hotendId)
    let vcs := if vcs.isEmpty then
        reg.filter (fun c => c.definitionId = machineId && c.name = some hotendId)
      else vcs
    match vcs.head? with
    | none => reg
    | some vc =>
      let nh0 : Profile :=
        { id := selfP.id ++ "_" ++ machineId ++ "_" ++ replaceSpaces hotendId,
          name := selfP.name, metadata := selfP.metadata,
          properties := selfP.properties, definitionId := machineId,
          settings := [], readOnly := false, dirty := false }
      let nh1 := metaAdd (metaAdd nh0 "base_file" (some selfP.id))
                   "variant" (some vc.id)
      let r2 := applyAll reg nh1 gsv
      let r3 := applyAll r2.2 r2.1 msv
      let r4 := applyHotendSettings r3.2 r3.1
                  (h.children.filter (fun e => e.tag = "setting"))
      r4.2 ++ [{ r4.1 with dirty := false }]

/-- Process one `<machine_identifier>` (lines 292-360): resolve the
product name and the machine definition (warn and skip on failure),
synthesize and register the machine profile, then its hotends. -/
def processIdentifier (defs : List (String × String)) (selfP : Profile)
    (gsv msv : List (String × Option String)) (m : Xml) (reg : List Profile)
    (ident : Xml) : List Profile :=
  match (mlookup ident.attrs "product").bind (fun pr => mlookup productIdMap pr) with
  | none => reg
  | some machineId =>
    if (mlookup defs machineId).isNone then reg
    else
      let nm0 : Profile :=
        { id := selfP.id ++ "_" ++ machineId, name := selfP.name,
          metadata := selfP.metadata, properties := selfP.properties,
          definitionId := machineId, settings := [], readOnly := false,
          dirty := false }
      let nm1 := metaAdd nm0 "base_file" (some selfP.id)
      let r2 := applyAll reg nm1 gsv
      let r3 := applyAll r2.2 r2.1 msv
      let reg4 := r3.2 ++ [{ r3.1 with dirty := false }]
      (m.children.filter (fun e => e.tag = "hotend")).foldl
        (processHotend selfP machineId gsv msv) reg4

/-- The machine loop of `deserialize` (lines 281-360). -/
def machinesWalk (defs : List (String × String)) (reg : List Profile)
    (selfP : Profile) (gsv : List (String × Option String)) (ms : List Xml) :
    List Profile :=
  ms.foldl (fun reg1 m =>
    let msv := machineSettingVals m
    (m.children.filter (fun e => e.tag = "machine_identifier")).foldl
      (processIdentifier defs selfP gsv msv m) reg1) reg

/-- `XmlMaterialProfile.deserialize` on an already-parsed document:
mutate the given profile in place and register the synthesized per-machine
and per-hotend siblings; returns the mutated profile and the grown
registry. -/
def deserialize (defs : List (String × String)) (reg : List Profile)
    (self : Profile) (doc : Xml) : Except DErr (Profile × List Profile) := do
  let p := metaAdd (metaAdd self "type" (some "material")) "status" (some "unknown")
  let p ← metaWalk p (metadataEntriesOf doc)
  let p := if (mlookup p.metadata "description").isNone
           then metaAdd p "description" (some "") else p
  let p := if (mlookup p.metadata "adhesion_info").isNone
           then metaAdd p "adhesion_info" (some "") else p
  let pv := propWalk (propertiesEntriesOf doc)
  floatCheck pv "diameter"
  floatCheck pv "density"
  let p := { p with properties := pv }
  if (mlookup defs "fdmprinter").isNone then throw .indexError
  let p := { p with definitionId := "fdmprinter" }
  let gw := globalWalk reg p (settingEntriesOf doc)
  let p := { gw.1 with dirty := false }
  let reg1 := machinesWalk defs gw.2.1 p gw.2.2 (machinesOf doc)
  pure (p, reg1)

/-! ## Association-list lemmas -/

theorem mlookup_mupdate {α : Type} (m : List (String × α)) (k k' : String) (v : α) :
    mlookup (mupdate m k v) k' = if k = k' then some v else mlookup m k' := by
  induction m with
  | nil => simp [mupdate, mlookup]
  | cons h t ih =>
    obtain ⟨k0, v0⟩ := h
    by_cases h0 : k0 = k
    · subst h0
      by_cases h1 : k0 = k'
      · subst h1
        simp [mupdate, mlookup]
      · simp [mupdate, mlookup, h1]
    · by_cases h1 : k0 = k'
      · subst h1
        have h2 : ¬k = k0 := fun he => h0 he.symm
        simp [mupdate, mlookup, h0, h2]
      · simp [mupdate, mlookup, h0, h1, ih]

theorem mlookup_eraseKey_ne {α : Type} (m : List (String × α)) (k k' : String)
    (h : k' ≠ k) : mlookup (eraseKey m k) k' = mlookup m k' := by
  induction m with
  | nil => simp [eraseKey]
  | cons hd t ih =>
    obtain ⟨k0, v0⟩ := hd
    by_cases h0 : k0 = k
    · subst h0
      have h1 : ¬k0 = k' := fun he => h he.symm
      simp [eraseKey, mlookup, h1]
    · simp only [eraseKey, if_neg h0, mlookup, ih]

theorem mlookup_append {α : Type} (a b : List (String × α)) (k : String) :
    mlookup (a ++ b) k =
      match mlookup a k with
      | some v => some v
      | none => mlookup b k := by
  induction a with
  | nil => simp [mlookup]
  | cons hd t ih =>
    obtain ⟨k0, v0⟩ := hd
    by_cases h0 : k0 = k
    · simp [mlookup, h0]
    · simp [mlookup, h0, ih]

theorem mupdate_of_absent {α : Type} (m : List (String × α)) (k : String) (v : α)
    (h : mlookup m k = none) : mupdate m k v = m ++ [(k, v)] := by
  induction m with
  | nil => simp [mupdate]
  | cons hd t ih =>
    obtain ⟨k0, v0⟩ := hd
    by_cases h0 : k0 = k
    · subst h0
      simp [mlookup] at h
    · simp only [mlookup, if_neg h0] at h
      simp [mupdate, if_neg h0, ih h]

/-! ## Claims C5-C8: GUID-family mutation operations -/

/-- Any profile trivially matches its own GUID query. -/
theorem sameGUID_self (c : Profile) : sameGUID c (metaGetD c "GUID" none) = true := by
  simp [sameGUID]

theorem metaGetD_mk (i : String) (nm : Option String)
    (md pr : List (String × Option String)) (df : String)
    (st : List (String × Option String)) (ro dt : Bool) (k : String)
    (d : Option String) :
    metaGetD ⟨i, nm, md, pr, df, st, ro, dt⟩ k d = (mlookup md k).getD d := rfl

/-- C6: `setReadOnly(b)` on the registered profile at index `i` makes every
registered container sharing its GUID (the profile itself included, by
taking `j = i`) report `read_only = b`; with `b = false` this clears the
flag family-wide. -/
theorem c6_setReadOnly_propagates_family (reg : List Profile) (i j : Nat)
    (b : Bool) (self q : Profile) (hi : reg[i]? = some self)
    (hj : reg[j]? = some q)
    (hg : sameGUID q (metaGetD self "GUID" none) = true) :
    ((setReadOnlyOp reg i b)[j]?).map Profile.readOnly = some b := by
  have hlen : i < reg.length := by
    rcases List.getElem?_eq_some.mp hi with ⟨h1, _⟩
    exact h1
  simp only [setReadOnlyOp, hi, List.getElem?_map]
  by_cases hij : i = j
  · subst hij
    rw [List.getElem?_set_self (by simpa using hlen)]
    simp only [Option.map_map, Option.map_some', Function.comp_apply]
    split <;> rfl
  · rw [List.getElem?_set_ne hij, hj]
    simp only [Option.map_map, Option.map_some', Function.comp_apply, metaGetD_mk]
    simp only [metaGetD] at hg
    simp [hg]

def exGuidA : Profile :=
  { id := "a", name := some "PLA", metadata := [("GUID", some "gg")],
    properties := [], definitionId := "fdmprinter", settings := [],
    readOnly := false, dirty := false }

def exGuidB : Profile :=
  { id := "b", name := some "PLA",
    metadata := [("GUID", some "gg"), ("variant", some "v1")],
    properties := [], definitionId := "ultimaker2",
    settings := [("material_print_temperature", some "200")],
    readOnly := false, dirty := false }

theorem c6_witness :
    ((setReadOnlyOp [exGuidA, exGuidB] 0 true)[1]?).map Profile.readOnly
      = some true :=
  c6_setReadOnly_propagates_family [exGuidA, exGuidB] 0 1 true exGuidA exGuidB
    rfl rfl (by decide)

/-- C5: on a non-read-only profile, `setMetaDataEntry("material", v)` makes
every registered container sharing the profile's GUID (itself included, by
taking `j = i`) carry display name `v` and the updated metadata map. -/
theorem c5_setMetaDataEntry_material_renames_family (reg : List Profile)
    (i j : Nat) (v : String) (self q : Profile) (hi : reg[i]? = some self)
    (hro : self.readOnly = false) (hj : reg[j]? = some q)
    (hg : sameGUID q (metaGetD self "GUID" none) = true) :
    ((setMetaDataEntryOp reg i "material" (some v))[j]?).map Profile.name
        = some (some v) ∧
    ((setMetaDataEntryOp reg i "material" (some v))[j]?).map Profile.metadata
        = some (mupdate self.metadata "material" (some v)) := by
  have hlen : i < reg.length := by
    rcases List.getElem?_eq_some.mp hi with ⟨h1, _⟩
    exact h1
  have hgeq : metaGetD
      { self with metadata := mupdate self.metadata "material" (some v),
                  name := some v } "GUID" none
      = metaGetD self "GUID" none := by
    simp [metaGetD, mlookup_mupdate]
  simp only [setMetaDataEntryOp, hi, hro, Bool.false_eq_true, if_false,
    ite_true, List.getElem?_map]
  by_cases hij : i = j
  · subst hij
    rw [List.getElem?_set_self (by simpa using hlen)]
    simp only [Option.map_map, Option.map_some', Function.comp_apply]
    simp [sameGUID_self]
  · rw [List.getElem?_set_ne hij, hj]
    simp only [Option.map_map, Option.map_some', Function.comp_apply, metaGetD_mk]
    simp only [metaGetD] at hg
    simp [mlookup_mupdate, hg]

theorem c5_witness :
    ((setMetaDataEntryOp [exGuidA, exGuidB] 0 "material" (some "PLA Red"))[1]?).map
        Profile.name = some (some "PLA Red") ∧
    ((setMetaDataEntryOp [exGuidA, exGuidB] 0 "material" (some "PLA Red"))[1]?).map
        Profile.metadata
      = some (mupdate exGuidA.metadata "material" (some "PLA Red")) :=
  c5_setMetaDataEntry_material_renames_family [exGuidA, exGuidB] 0 1 "PLA Red"
    exGuidA exGuidB rfl rfl rfl (by decide)

/-- C7: on a read-only profile, both `setMetaDataEntry` and `setProperty`
return before mutating anything: the registry (and hence the profile and
every family member) is unchanged and no error is raised. -/
theorem c7_readonly_mutations_are_noops (reg : List Profile) (i : Nat)
    (k pn : String) (v pv : Option String) (self : Profile)
    (hi : reg[i]? = some self) (hro : self.readOnly = true) :
    setMetaDataEntryOp reg i k v = reg ∧ setPropertyOp reg i k pn pv = reg := by
  unfold setMetaDataEntryOp setPropertyOp
  rw [hi]
  simp [hro]

def exGuidRO : Profile :=
  { id := "r", name := some "ABS", metadata := [("GUID", some "hh")],
    properties := [], definitionId := "fdmprinter", settings := [],
    readOnly := true, dirty := false }

theorem c7_witness :
    setMetaDataEntryOp [exGuidRO, exGuidB] 0 "material" (some "X")
        = [exGuidRO, exGuidB] ∧
    setPropertyOp [exGuidRO, exGuidB] 0 "retraction_amount" "value" (some "1")
        = [exGuidRO, exGuidB] :=
  c7_readonly_mutations_are_noops [exGuidRO, exGuidB] 0 "material"
    "retraction_amount" (some "X") (some "1") exGuidRO rfl rfl

/-- C8: on a non-read-only profile, `setProperty(key, "value", v)` updates
the setting only in the profile's own scope (index `i`), leaves every other
registered profile's settings unchanged, and marks every registered
container sharing the profile's GUID (itself included) dirty. -/
theorem c8_setProperty_frame_and_dirty (reg : List Profile) (i j : Nat)
    (key : String) (v : Option String) (self q : Profile)
    (hi : reg[i]? = some self) (hro : self.readOnly = false)
    (hj : reg[j]? = some q)
    (hg : sameGUID q (metaGetD self "GUID" none) = true) :
    ((setPropertyOp reg i key "value" v)[i]?).map Profile.settings
        = some (mupdate self.settings key v) ∧
    (j ≠ i → ((setPropertyOp reg i key "value" v)[j]?).map Profile.settings
        = some q.settings) ∧
    ((setPropertyOp reg i key "value" v)[j]?).map Profile.dirty = some true := by
  have hlen : i < reg.length := by
    rcases List.getElem?_eq_some.mp hi with ⟨h1, _⟩
    exact h1
  simp only [setPropertyOp, hi, hro, Bool.false_eq_true, if_false, ite_true,
    List.getElem?_map]
  refine ⟨?_, ?_, ?_⟩
  · rw [List.getElem?_set_self (by simpa using hlen)]
    simp only [Option.map_map, Option.map_some', Function.comp_apply]
    split <;> rfl
  · intro hne
    rw [List.getElem?_set_ne (fun h => hne h.symm), hj]
    simp only [Option.map_map, Option.map_some', Function.comp_apply]
    split <;> rfl
  · by_cases hij : i = j
    · subst hij
      rw [List.getElem?_set_self (by simpa using hlen)]
      simp only [Option.map_map, Option.map_some', Function.comp_apply]
      simp [sameGUID_self]
    · rw [List.getElem?_set_ne hij, hj]
      simp only [Option.map_map, Option.map_some', Function.comp_apply, metaGetD_mk]
      simp only [metaGetD] at hg
      simp [hg]

theorem c8_witness :
    ((setPropertyOp [exGuidA, exGuidB] 1 "retraction_amount" "value"
        (some "2"))[1]?).map Profile.settings
      = some (mupdate exGuidB.settings "retraction_amount" (some "2")) ∧
    ((0 : Nat) ≠ 1 → ((setPropertyOp [exGuidA, exGuidB] 1 "retraction_amount"
        "value" (some "2"))[0]?).map Profile.settings = some exGuidA.settings) ∧
    ((setPropertyOp [exGuidA, exGuidB] 1 "retraction_amount" "value"
        (some "2"))[0]?).map Profile.dirty = some true :=
  c8_setProperty_frame_and_dirty [exGuidA, exGuidB] 1 0 "retraction_amount"
    (some "2") exGuidB exGuidA rfl rfl rfl (by decide)

/-! ## Claim C2: the non-root serialize guard -/

/-- C2: when the `base_file` metadata entry holds a truthy string different
from the profile's own id, `serialize` raises `NotImplementedError` before
any element is built (the guard precedes the tree builder, so no partial
output exists); when `base_file` is absent (or `None`, or the falsy empty
string) or equal to the profile's own id, `serialize` never raises this
error (it can only succeed or raise the unrelated `TypeError`). -/
theorem c2_serialize_nonroot_guard (defs : List (String × String))
    (reg : List Profile) (p : Profile) :
    ((∃ s, mlookup p.metadata "base_file" = some (some s) ∧ s ≠ "" ∧ p.id ≠ s) →
      serialize defs reg p = .error .notImplemented) ∧
    ((∀ s, mlookup p.metadata "base_file" = some (some s) → s = "" ∨ p.id = s) →
      serialize defs reg p ≠ .error .notImplemented) := by
  constructor
  · rintro ⟨s, hbf, hs, hid⟩
    unfold serialize baseFileGuard
    rw [hbf]
    simp [hs, hid]
  · intro hall
    unfold serialize baseFileGuard
    have hguard : (match (mlookup p.metadata "base_file").getD (some "") with
        | none => false
        | some s => s ≠ "" && p.id ≠ s) = false := by
      cases hbf : mlookup p.metadata "base_file" with
      | none => simp
      | some v =>
        cases v with
        | none => simp
        | some s =>
          rcases hall s hbf with h | h
          · subst h; simp
          · simp [h]
    rw [hguard]
    simp only [Bool.false_eq_true, if_false]
    cases hb : serializeBody defs reg p <;> simp

def exNonRoot : Profile :=
  { id := "m1_ultimaker2", name := some "PLA",
    metadata := [("GUID", some "gg"), ("base_file", some "m1")],
    properties := [], definitionId := "ultimaker2", settings := [],
    readOnly := false, dirty := false }

def exRoot : Profile :=
  { id := "m1", name := some "PLA",
    metadata := [("GUID", some "gg"), ("base_file", some "m1")],
    properties := [], definitionId := "fdmprinter", settings := [],
    readOnly := false, dirty := false }

theorem c2_witness :
    serialize [] [] exNonRoot = .error .notImplemented ∧
    serialize [] [] exRoot ≠ .error .notImplemented :=
  ⟨(c2_serialize_nonroot_guard [] [] exNonRoot).1
      ⟨"m1", rfl, by decide, by decide⟩,
   (c2_serialize_nonroot_guard [] [] exRoot).2 (by
      intro s hs
      right
      have h2 : mlookup exRoot.metadata "base_file" = some (some "m1") := rfl
      rw [h2] at hs
      simp only [Option.some.injEq] at hs
      exact hs ▸ rfl)⟩

/-! ## Claim C10: deserialize on a name block missing a child -/

theorem metaWalkStep_deficient (p : Profile) (e : Xml) (ht : e.tag = "name")
    (hmiss : findChild e "brand" = none ∨ findChild e "material" = none ∨
      findChild e "color" = none) :
    metaWalkStep p e = .error .attrError := by
  unfold metaWalkStep
  cases hb : findChild e "brand" <;> cases hm : findChild e "material" <;>
    cases hc : findChild e "color" <;> simp_all [ht]

theorem metaWalkStep_error (p : Profile) (e : Xml) (err : DErr)
    (h : metaWalkStep p e = .error err) : err = .attrError := by
  unfold metaWalkStep at h
  split at h
  · split at h <;> simp_all
  · simp_all

theorem metaWalk_error_absorb (es : List Xml) (err : DErr) :
    es.foldl (fun acc e => acc.bind (fun q => metaWalkStep q e))
      (Except.error err : Except DErr Profile) = .error err := by
  induction es with
  | nil => rfl
  | cons a es ih => simpa [Except.bind] using ih

theorem metaWalk_deficient (es : List Xml) (p : Profile)
    (h : ∃ e ∈ es, e.tag = "name" ∧ (findChild e "brand" = none ∨
      findChild e "material" = none ∨ findChild e "color" = none)) :
    metaWalk p es = .error .attrError := by
  induction es generalizing p with
  | nil => simp at h
  | cons a es ih =>
    rcases h with ⟨e, he, ht, hmiss⟩
    rcases List.mem_cons.mp he with rfl | hmem
    · show List.foldl _ ((Except.ok p).bind (fun q => metaWalkStep q e)) es
          = .error .attrError
      rw [show (Except.ok p).bind (fun q => metaWalkStep q e)
            = metaWalkStep p e from rfl,
          metaWalkStep_deficient p e ht hmiss]
      exact metaWalk_error_absorb es .attrError
    · show List.foldl _ ((Except.ok p).bind (fun q => metaWalkStep q a)) es
          = .error .attrError
      rw [show (Except.ok p).bind (fun q => metaWalkStep q a)
            = metaWalkStep p a from rfl]
      cases hstep : metaWalkStep p a with
      | ok q => exact ih q ⟨e, hmem, ht, hmiss⟩
      | error err =>
        rw [metaWalkStep_error p a err hstep]
        exact metaWalk_error_absorb es .attrError

/-- C10: on any parsed material document whose metadata contains a `name`
entry lacking a `brand`, `material` or `color` child, `deserialize` raises
the `AttributeError` from dereferencing `.text` on the missing element —
not a parse error and not a graceful skip; totality over name blocks needs
all three children present. -/
theorem c10_deserialize_missing_name_child (defs : List (String × String))
    (reg : List Profile) (self : Profile) (doc : Xml) (e : Xml)
    (he : e ∈ metadataEntriesOf doc) (ht : e.tag = "name")
    (hmiss : findChild e "brand" = none ∨ findChild e "material" = none ∨
      findChild e "color" = none) :
    deserialize defs reg self doc = .error .attrError := by
  have hwalk := metaWalk_deficient (metadataEntriesOf doc)
    (metaAdd (metaAdd self "type" (some "material")) "status" (some "unknown"))
    ⟨e, he, ht, hmiss⟩
  simp only [deserialize]
  rw [hwalk]
  rfl

def exFresh : Profile :=
  { id := "new", name := none, metadata := [], properties := [],
    definitionId := "", settings := [], readOnly := false, dirty := false }

def exBadNameDoc : Xml :=
  .elem "fdmmaterial" [("xmlns", "http://www.ultimaker.com/material")] none
    [.elem "metadata" [] none
      [.elem "name" [] none [.elem "material" [] (some "PLA") [] none] none]
      none]
    none

theorem c10_witness :
    deserialize [("fdmprinter", "")] [] exFresh exBadNameDoc
      = .error .attrError :=
  c10_deserialize_missing_name_child [("fdmprinter", "")] [] exFresh
    exBadNameDoc
    (.elem "name" [] none [.elem "material" [] (some "PLA") [] none] none)
    (by decide) rfl (Or.inl (by decide))

/-! ## Claims C4 and C9: grouping of the GUID family by definition id -/

theorem getLast?_cons_or {α : Type} (a : α) (l : List α) :
    (a :: l).getLast? = l.getLast?.or (some a) := by
  cases l with
  | nil => rfl
  | cons b t =>
    rw [List.getLast?_cons_cons]
    cases h : (b :: t).getLast? with
    | none => simp at h
    | some x => rfl

/-- The non-varianted members of a definition-id group, in family order. -/
def nvFilter (d : String) (l : List Profile) : List Profile :=
  l.filter (fun c => decide (c.definitionId = d ∧ truthyVariant c = none))

/-- All members of a definition-id group, in family order. -/
def dFilter (d : String) (l : List Profile) : List Profile :=
  l.filter (fun c => decide (c.definitionId = d))

/-- The members of a definition-id group carrying the variant `v`. -/
def vFilter (d v : String) (l : List Profile) : List Profile :=
  l.filter (fun c => decide (c.definitionId = d ∧ truthyVariant c = some v))

theorem machineMap_step_lookup (maps : Maps) (c : Profile) (d : String) :
    mlookup (buildMapsStep maps c).machineMap d =
      if c.definitionId = "fdmprinter" ∨ ¬c.definitionId = d then
        mlookup maps.machineMap d
      else if truthyVariant c = none then some c
      else (mlookup maps.machineMap d).or (some c) := by
  unfold buildMapsStep
  by_cases hf : c.definitionId = "fdmprinter"
  · simp [hf]
  · by_cases hd : c.definitionId = d
    · subst hd
      cases hv : truthyVariant c with
      | none =>
        cases hmm : mlookup maps.machineMap c.definitionId <;>
          simp [hf, hv, hmm, mlookup_mupdate]
      | some v0 =>
        cases hmm : mlookup maps.machineMap c.definitionId <;>
          simp [hf, hv, hmm, mlookup_mupdate]
    · cases hv : truthyVariant c <;>
        cases hmm : mlookup maps.machineMap c.definitionId <;>
          simp [hf, hd, hv, hmm, mlookup_mupdate]

theorem nozzleMap_step_lookup (maps : Maps) (c : Profile) (d v : String) :
    mlookup ((mlookup (buildMapsStep maps c).nozzleMap d).getD []) v =
      if c.definitionId = "fdmprinter" ∨ ¬c.definitionId = d then
        mlookup ((mlookup maps.nozzleMap d).getD []) v
      else
        match truthyVariant c with
        | none => mlookup ((mlookup maps.nozzleMap d).getD []) v
        | some v0 =>
          if v0 = v then some c
          else mlookup ((mlookup maps.nozzleMap d).getD []) v := by
  unfold buildMapsStep
  by_cases hf : c.definitionId = "fdmprinter"
  · simp [hf]
  · by_cases hd : c.definitionId = d
    · subst hd
      cases hv : truthyVariant c with
      | none =>
        cases hnm : mlookup maps.nozzleMap c.definitionId <;>
          simp [hf, hv, hnm, mlookup_mupdate]
      | some v0 =>
        by_cases hvv : v0 = v <;>
          cases hnm : mlookup maps.nozzleMap c.definitionId <;>
            simp [hf, hv, hnm, hvv, mlookup_mupdate]
    · cases hv : truthyVariant c <;>
        cases hnm : mlookup maps.nozzleMap c.definitionId <;>
          simp [hf, hd, hv, hnm, mlookup_mupdate]

theorem buildMaps_machine_char_aux (family : List Profile) (acc : Maps)
    (d : String) (hd : ¬d = "fdmprinter") :
    mlookup (family.foldl buildMapsStep acc).machineMap d =
      ((nvFilter d family).getLast?).or
        ((mlookup acc.machineMap d).or ((dFilter d family).head?)) := by
  induction family generalizing acc with
  | nil => simp [nvFilter, dFilter, Option.or_none]
  | cons c fam ih =>
    rw [List.foldl_cons, ih (buildMapsStep acc c), machineMap_step_lookup]
    by_cases hcd : c.definitionId = d
    · have hf : ¬c.definitionId = "fdmprinter" := by rw [hcd]; exact hd
      cases hv : truthyVariant c with
      | none =>
        simp [nvFilter, dFilter, List.filter_cons, hcd, hv, hd,
          getLast?_cons_or, Option.or_assoc]
      | some v0 =>
        simp [nvFilter, dFilter, List.filter_cons, hcd, hv, hd,
          getLast?_cons_or, Option.or_assoc]
    · simp [nvFilter, dFilter, List.filter_cons, hcd, Option.or_assoc]

theorem buildMaps_nozzle_char_aux (family : List Profile) (acc : Maps)
    (d v : String) (hd : ¬d = "fdmprinter") :
    mlookup ((mlookup (family.foldl buildMapsStep acc).nozzleMap d).getD []) v =
      ((vFilter d v family).getLast?).or
        (mlookup ((mlookup acc.nozzleMap d).getD []) v) := by
  induction family generalizing acc with
  | nil => simp [vFilter, Option.or_none]
  | cons c fam ih =>
    rw [List.foldl_cons, ih (buildMapsStep acc c), nozzleMap_step_lookup]
    by_cases hcd : c.definitionId = d
    · have hf : ¬c.definitionId = "fdmprinter" := by rw [hcd]; exact hd
      cases hv : truthyVariant c with
      | none =>
        simp [hf, hcd, hv, hd, vFilter, List.filter_cons]
      | some v0 =>
        by_cases hvv : v0 = v
        · subst hvv
          simp [hf, hcd, hv, hd, vFilter, List.filter_cons, getLast?_cons_or,
            Option.or_assoc]
        · simp [hf, hcd, hv, hvv, hd, vFilter, List.filter_cons]
    · simp [vFilter, List.filter_cons, hcd]

/-- On the empty accumulator, the machine map holds the last non-varianted
member of the group when one exists, else the first group member. -/
theorem buildMaps_machine_char (family : List Profile) (d : String)
    (hd : ¬d = "fdmprinter") :
    mlookup (buildMaps family).machineMap d =
      ((nvFilter d family).getLast?).or ((dFilter d family).head?) := by
  have h := buildMaps_machine_char_aux family ⟨[], []⟩ d hd
  simpa [buildMaps, mlookup] using h

/-- On the empty accumulator, the nozzle map holds, per variant, the last
member of the group carrying that variant. -/
theorem buildMaps_nozzle_char (family : List Profile) (d v : String)
    (hd : ¬d = "fdmprinter") :
    mlookup ((mlookup (buildMaps family).nozzleMap d).getD []) v =
      (vFilter d v family).getLast? := by
  have h := buildMaps_nozzle_char_aux family ⟨[], []⟩ d v hd
  simpa [buildMaps, mlookup, Option.or_none] using h

def c4First : Profile :=
  { id := "m_um2_a", name := some "PLA",
    metadata := [("GUID", some "g4")], properties := [],
    definitionId := "ultimaker2",
    settings := [("material_print_temperature", some "200")],
    readOnly := false, dirty := false }

def c4Second : Profile :=
  { id := "m_um2_b", name := some "PLA",
    metadata := [("GUID", some "g4")], properties := [],
    definitionId := "ultimaker2",
    settings := [("material_print_temperature", some "215")],
    readOnly := false, dirty := false }

def c4Variant : Profile :=
  { id := "m_um2_v", name := some "PLA",
    metadata := [("GUID", some "g4"), ("variant", some "v1")], properties := [],
    definitionId := "ultimaker2",
    settings := [("material_print_temperature", some "230")],
    readOnly := false, dirty := false }

/-- C4 is false on the code: with two non-varianted members of the same
definition id, the machine container is the second (last) one, not the
first; and a varianted member that comes first is recorded in the machine
map too, not only in the nozzle map. -/
theorem c4_counterexample :
    mlookup (buildMaps [c4First, c4Second]).machineMap "ultimaker2"
        ≠ some c4First ∧
    mlookup (buildMaps [c4First, c4Second]).machineMap "ultimaker2"
        = some c4Second ∧
    mlookup (buildMaps [c4Variant]).machineMap "ultimaker2" = some c4Variant := by
  decide

/-- C4 amended: grouping the family by definition id (`fdmprinter`
excluded), a varianted profile is bucketed in the per-machine nozzle map
(last profile per (machine, variant) pair wins) and additionally seeds the
machine map when it is the first profile of its definition id; among
non-varianted profiles the LAST one found is the machine container —
when any non-varianted member exists it wins over every varianted one. -/
theorem c4_grouping_last_nonvariant_wins (family : List Profile) (d v : String)
    (hd : ¬d = "fdmprinter") :
    mlookup (buildMaps family).machineMap d =
      ((nvFilter d family).getLast?).or ((dFilter d family).head?) ∧
    mlookup ((mlookup (buildMaps family).nozzleMap d).getD []) v =
      (vFilter d v family).getLast? :=
  ⟨buildMaps_machine_char family d hd, buildMaps_nozzle_char family d v hd⟩

theorem c4_witness :
    mlookup (buildMaps [c4First, c4Variant, c4Second]).machineMap "ultimaker2"
        = ((nvFilter "ultimaker2" [c4First, c4Variant, c4Second]).getLast?).or
            ((dFilter "ultimaker2" [c4First, c4Variant, c4Second]).head?) ∧
    mlookup ((mlookup (buildMaps [c4First, c4Variant, c4Second]).nozzleMap
        "ultimaker2").getD []) "v1"
      = (vFilter "ultimaker2" "v1" [c4First, c4Variant, c4Second]).getLast? :=
  c4_grouping_last_nonvariant_wins [c4First, c4Variant, c4Second]
    "ultimaker2" "v1" (by decide)

/-! ## Claim C9: an all-varianted definition-id group -/

/-- The payload of a successful emission, `[]` on the error path. -/
def exceptList (r : Except TErr (List Xml)) : List Xml :=
  match r with
  | .ok l => l
  | .error _ => []

theorem mlookup_eq_of_mem_nodup {α : Type} (l : List (String × α))
    (k : String) (v : α) (h : (k, v) ∈ l) (hnd : keysNodup l) :
    mlookup l k = some v := by
  induction l with
  | nil => simp at h
  | cons hd0 t ih =>
    obtain ⟨k0, v0⟩ := hd0
    rcases List.mem_cons.mp h with heq | hmem
    · cases heq
      simp [mlookup]
    · have hnd' := hnd
      rw [keysNodup] at hnd'
      simp only [List.map_cons, List.nodup_cons] at hnd'
      obtain ⟨hk0, hndt⟩ := hnd'
      have hk : ¬k0 = k := by
        intro hk0eq
        subst hk0eq
        exact hk0 (List.mem_map.mpr ⟨(k0, v), hmem, rfl⟩)
      simp only [mlookup, if_neg hk]
      exact ih hmem hndt

/-- A hotend emitted for the machine container itself has every setting
suppressed: each of its instances equals the container's own. -/
theorem emitHotend_self_no_settings (reg : List Profile) (c : Profile)
    (hnd : keysNodup c.settings) :
    (exceptList (emitHotend reg c c)).all (fun h => h.children.isEmpty) = true := by
  unfold emitHotend
  cases hvc : (reg.filter
      (fun q => some q.id = metaGetD c "variant" none)).head? with
  | none => rfl
  | some vc =>
    dsimp only
    cases hnm : vc.name with
    | none => simp [exceptList]
    | some nm =>
      simp only [exceptList, List.all_cons, List.all_nil, Bool.and_true]
      have hfm : c.settings.filterMap
          (fun p => emitHotendSetting c p.1 p.2) = [] := by
        rw [List.filterMap_eq_nil]
        intro p hp
        obtain ⟨ik, v⟩ := p
        have hlk : mlookup c.settings ik = some v :=
          mlookup_eq_of_mem_nodup c.settings ik v hp hnd
        simp [emitHotendSetting, hlk]
      simp [hfm, Xml.children, pure, Except.pure]

/-- C9 corrected: when every member of a definition-id group carries a
variant, the first member of the group (a varianted profile) is indeed the
machine container, but its `<hotend>` block contains NO settings at all —
each one is suppressed as identical to the machine scope — rather than the
settings being emitted a second time. -/
theorem c9_allvariant_first_is_container_hotend_empty (family : List Profile)
    (d : String) (reg : List Profile) (c : Profile) (hd : ¬d = "fdmprinter")
    (hall : nvFilter d family = [])
    (hc : (dFilter d family).head? = some c)
    (hnd : keysNodup c.settings) :
    mlookup (buildMaps family).machineMap d = some c ∧
    (exceptList (emitHotend reg c c)).all (fun h => h.children.isEmpty) = true := by
  constructor
  · rw [buildMaps_machine_char family d hd, hall]
    simpa using hc
  · exact emitHotend_self_no_settings reg c hnd

def c9VariantCont : Profile :=
  { id := "v1", name := some "AA 0.4", metadata := [], properties := [],
    definitionId := "ultimaker2_variants", settings := [],
    readOnly := true, dirty := false }

theorem c9_witness :
    mlookup (buildMaps [c4Variant]).machineMap "ultimaker2" = some c4Variant ∧
    (exceptList (emitHotend [c9VariantCont] c4Variant c4Variant)).all
        (fun h => h.children.isEmpty) = true :=
  c9_allvariant_first_is_container_hotend_empty [c4Variant] "ultimaker2"
    [c9VariantCont] c4Variant (by decide) (by decide) (by decide) (by decide)

/-- The hotend blocks of an emitted machine element. -/
def hotendsOf (m : Xml) : List Xml :=
  m.children.filter (fun e => e.tag = "hotend")

/-- The setting elements directly under an emitted element. -/
def settingChildren (e : Xml) : List Xml :=
  e.children.filter (fun c => c.tag = "setting")

def c9Root : Profile :=
  { id := "m", name := some "PLA", metadata := [("GUID", some "g9")],
    properties := [], definitionId := "fdmprinter", settings := [],
    readOnly := false, dirty := false }

def c9Machine : Profile :=
  { id := "m_um2", name := some "PLA",
    metadata := [("GUID", some "g9"), ("variant", some "v1"),
                 ("base_file", some "m")],
    properties := [], definitionId := "ultimaker2",
    settings := [("material_print_temperature", some "210")],
    readOnly := false, dirty := false }

def c9Reg : List Profile := [c9Root, c9Machine, c9VariantCont]

/-- C9 as stated is false on the code: serializing a family whose only
`ultimaker2` member carries a variant emits that member's setting once at
machine scope and then an EMPTY `<hotend>` block — the settings are not
emitted again under the hotend. -/
theorem c9_counterexample :
    ((serialize [("ultimaker2", "Ultimaker")] c9Reg c9Root).toOption.map
        (fun doc => ((machinesOf doc).map settingChildren).flatten.length))
      = some 1 ∧
    ((serialize [("ultimaker2", "Ultimaker")] c9Reg c9Root).toOption.map
        (fun doc => ((machinesOf doc).map hotendsOf).flatten.length))
      = some 1 ∧
    ((serialize [("ultimaker2", "Ultimaker")] c9Reg c9Root).toOption.map
        (fun doc =>
          (((machinesOf doc).map hotendsOf).flatten.map
            settingChildren).flatten.length)) = some 0 := by
  decide

/-! ## Claim C3: delta suppression at machine and hotend scope -/

theorem findKey_mlookup (m : List (String × String)) (v k : String)
    (hnd : keysNodup m) (h : findKey m v = some k) : mlookup m k = some v := by
  unfold findKey at h
  cases hf : m.find? (fun p => p.2 = v) with
  | none => rw [hf] at h; simp at h
  | some a =>
    rw [hf] at h
    obtain ⟨k0, v0⟩ := a
    simp only [Option.map_some'] at h
    have hmem := List.mem_of_find?_eq_some hf
    have hp := List.find?_some hf
    simp only [decide_eq_true_eq] at hp
    cases h
    cases hp
    exact mlookup_eq_of_mem_nodup m _ _ hmem hnd

theorem addSettingElement_some (ik : String) (v : Option String) (e : Xml)
    (h : addSettingElement ik v = some e) :
    ∃ ext, findKey materialSettingMap ik = some ext ∧
      e = Xml.elem "setting" [("key", ext)] (some (strOf v)) [] none := by
  unfold addSettingElement at h
  cases hf : findKey materialSettingMap ik with
  | none => rw [hf] at h; simp at h
  | some ext =>
    rw [hf] at h
    simp only [Option.some.injEq] at h
    exact ⟨ext, rfl, h.symm⟩

theorem emitMachineSettingElem_some (self : Profile) (ik : String)
    (v : Option String) (e : Xml)
    (h : emitMachineSettingElem self ik v = some e) :
    addSettingElement ik v = some e := by
  unfold emitMachineSettingElem at h
  split at h
  · split at h
    · split at h
      · exact absurd h (by simp)
      · exact h
    · exact h
  · exact h

theorem emitHotendSetting_some (container : Profile) (ik : String)
    (v : Option String) (e : Xml)
    (h : emitHotendSetting container ik v = some e) :
    addSettingElement ik v = some e := by
  unfold emitHotendSetting at h
  split at h
  · split at h
    · exact absurd h (by simp)
    · exact h
  · exact h

theorem emitHotend_tags (reg : List Profile) (c h : Profile) (xs : List Xml)
    (hok : emitHotend reg c h = .ok xs) : ∀ x ∈ xs, x.tag = "hotend" := by
  unfold emitHotend at hok
  split at hok
  · simp only [pure, Except.pure, Except.ok.injEq] at hok
    subst hok
    intro x hx
    simp at hx
  · split at hok
    · exact absurd hok (by simp)
    · simp only [pure, Except.pure, Except.ok.injEq] at hok
      subst hok
      intro x hx
      rcases List.mem_singleton.mp hx with rfl
      rfl

theorem mapM_emitHotend_tags (reg : List Profile) (c : Profile)
    (nozzles : List (String × Profile)) (ls : List (List Xml))
    (hok : nozzles.mapM (fun hv => emitHotend reg c hv.2) = .ok ls) :
    ∀ x ∈ ls.flatten, x.tag = "hotend" := by
  induction nozzles generalizing ls with
  | nil =>
    simp only [List.mapM_nil, pure, Except.pure, Except.ok.injEq] at hok
    subst hok
    intro x hx
    simp at hx
  | cons n ns ih =>
    rw [List.mapM_cons] at hok
    cases h1 : emitHotend reg c n.2 with
    | error te => rw [h1] at hok; exact absurd hok (by simp [Bind.bind, Except.bind])
    | ok l =>
      rw [h1] at hok
      cases h2 : ns.mapM (fun hv => emitHotend reg c hv.2) with
      | error te =>
        rw [h2] at hok
        exact absurd hok (by simp [Bind.bind, Except.bind])
      | ok ls2 =>
        rw [h2] at hok
        simp only [Bind.bind, Except.bind, pure, Except.pure,
          Except.ok.injEq] at hok
        subst hok
        intro x hx
        rcases (by simpa using hx : x ∈ l ∨ ∃ l2 ∈ ls2, x ∈ l2) with
          hxl | ⟨l2, hl2, hxl2⟩
        · exact emitHotend_tags reg c n.2 l h1 x hxl
        · exact ih ls2 h2 x (List.mem_flatten.mpr ⟨l2, hl2, hxl2⟩)

/-- C3: a machine-scope instance equal (same key, same value) to the
serialized root's own global setting is suppressed: no `<setting>` element
for that key appears among the direct children of the emitted `<machine>`
element; likewise a hotend-scope instance equal to the enclosing machine
container's setting never appears under the emitted `<hotend>`. -/
theorem c3_inherited_duplicates_suppressed
    (defs : List (String × String)) (reg : List Profile)
    (self container hotend : Profile) (d : String)
    (nozzles : List (String × Profile)) (ik : String) (v : Option String)
    (hfdm : self.definitionId = "fdmprinter")
    (hndc : keysNodup container.settings)
    (hndh : keysNodup hotend.settings) :
    ((mlookup container.settings ik = some v ∧
      mlookup self.settings ik = some v) →
      ∀ m ∈ exceptList (emitMachine defs reg self d container nozzles),
        ∀ e ∈ settingChildren m, ∀ exk, mlookup e.attrs "key" = some exk →
          mlookup materialSettingMap exk ≠ some ik) ∧
    ((mlookup hotend.settings ik = some v ∧
      mlookup container.settings ik = some v) →
      ∀ h ∈ exceptList (emitHotend reg container hotend),
        ∀ e ∈ settingChildren h, ∀ exk, mlookup e.attrs "key" = some exk →
          mlookup materialSettingMap exk ≠ some ik) := by
  constructor
  · rintro ⟨hcv, hsv⟩ m hm e he exk hattr hrev
    unfold emitMachine at hm
    cases hpk : findKey productIdMap d with
    | none => rw [hpk] at hm; simp [exceptList, pure, Except.pure] at hm
    | some product =>
      rw [hpk] at hm
      cases hml : nozzles.mapM (fun hv => emitHotend reg container hv.2) with
      | error te =>
        rw [hml] at hm
        simp [exceptList, Bind.bind, Except.bind] at hm
      | ok hls =>
        rw [hml] at hm
        simp only [Bind.bind, Except.bind, pure, Except.pure, exceptList,
          List.mem_singleton] at hm
        subst hm
        have hel := List.mem_of_mem_filter he
        have hpe := List.of_mem_filter he
        simp only [Xml.children] at hel
        rcases List.mem_cons.mp hel with rfl | hel2
        · simp [Xml.tag] at hpe
        · rcases List.mem_append.mp hel2 with hse | hhe
          · rcases List.mem_filterMap.mp hse with ⟨⟨ik1, v1⟩, hmem1, hemit⟩
            have hadd := emitMachineSettingElem_some self ik1 v1 e hemit
            rcases addSettingElement_some ik1 v1 e hadd with ⟨ext1, hfk1, rfl⟩
            simp [Xml.attrs, mlookup] at hattr
            subst hattr
            have hext := findKey_mlookup materialSettingMap ik1 ext1
              (by decide) hfk1
            rw [hext] at hrev
            have hik : ik1 = ik := by
              injection hrev
            subst hik
            have hv1 : v1 = v := by
              have hm1 := mlookup_eq_of_mem_nodup container.settings ik1 v1
                hmem1 hndc
              rw [hcv] at hm1
              injection hm1 with hm2
              exact hm2.symm
            subst hv1
            simp [emitMachineSettingElem, hfdm, hsv] at hemit
          · have htag := mapM_emitHotend_tags reg container nozzles hls hml e hhe
            rw [htag] at hpe
            simp at hpe
  · rintro ⟨hhv, hcv⟩ h hh e he exk hattr hrev
    unfold emitHotend at hh
    cases hvc : (reg.filter
        (fun q => some q.id = metaGetD hotend "variant" none)).head? with
    | none => rw [hvc] at hh; simp [exceptList, pure, Except.pure] at hh
    | some vc =>
      rw [hvc] at hh
      dsimp only at hh
      cases hnm : vc.name with
      | none => rw [hnm] at hh; simp [exceptList] at hh
      | some nm =>
        rw [hnm] at hh
        simp only [pure, Except.pure, exceptList, List.mem_singleton] at hh
        subst hh
        have hel := List.mem_of_mem_filter he
        simp only [Xml.children] at hel
        rcases List.mem_filterMap.mp hel with ⟨⟨ik1, v1⟩, hmem1, hemit⟩
        have hadd := emitHotendSetting_some container ik1 v1 e hemit
        rcases addSettingElement_some ik1 v1 e hadd with ⟨ext1, hfk1, rfl⟩
        simp [Xml.attrs, mlookup] at hattr
        subst hattr
        have hext := findKey_mlookup materialSettingMap ik1 ext1
          (by decide) hfk1
        rw [hext] at hrev
        have hik : ik1 = ik := by
          injection hrev
        subst hik
        have hv1 : v1 = v := by
          have hm1 := mlookup_eq_of_mem_nodup hotend.settings ik1 v1 hmem1 hndh
          rw [hhv] at hm1
          injection hm1 with hm2
          exact hm2.symm
        subst hv1
        simp [emitHotendSetting, hcv] at hemit

def c3Self : Profile :=
  { id := "m", name := some "PLA", metadata := [("GUID", some "g3")],
    properties := [], definitionId := "fdmprinter",
    settings := [("material_print_temperature", some "210")],
    readOnly := false, dirty := false }

def c3Container : Profile :=
  { id := "m_um2", name := some "PLA", metadata := [("GUID", some "g3")],
    properties := [], definitionId := "ultimaker2",
    settings := [("material_print_temperature", some "210")],
    readOnly := false, dirty := false }

def c3Hotend : Profile :=
  { id := "m_um2_v1", name := some "PLA",
    metadata := [("GUID", some "g3"), ("variant", some "v1")],
    properties := [], definitionId := "ultimaker2",
    settings := [("material_print_temperature", some "210")],
    readOnly := false, dirty := false }

def c3VarCont : Profile :=
  { id := "v1", name := some "AA 0.4", metadata := [], properties := [],
    definitionId := "ultimaker2_variants", settings := [],
    readOnly := true, dirty := false }

theorem c3_witness :
    ((exceptList (emitMachine [("ultimaker2", "Ultimaker")] [c3VarCont] c3Self
        "ultimaker2" c3Container [])).all (fun m => (settingChildren m).all
      (fun e => !((mlookup e.attrs "key").bind
          (fun exk => mlookup materialSettingMap exk)
        == some "material_print_temperature")))) = true ∧
    ((exceptList (emitHotend [c3VarCont] c3Container c3Hotend)).all
      (fun h => (settingChildren h).all
        (fun e => !((mlookup e.attrs "key").bind
            (fun exk => mlookup materialSettingMap exk)
          == some "material_print_temperature")))) = true := by
  have hth := c3_inherited_duplicates_suppressed [("ultimaker2", "Ultimaker")]
    [c3VarCont] c3Self c3Container c3Hotend "ultimaker2" []
    "material_print_temperature" (some "210") rfl (by decide) (by decide)
  constructor
  · rw [List.all_eq_true]
    intro m hm
    rw [List.all_eq_true]
    intro e he
    cases hk : mlookup e.attrs "key" with
    | none => simp
    | some exk =>
      have hne := hth.1 (by decide) m hm e he exk hk
      simp [hk, hne]
  · rw [List.all_eq_true]
    intro h hh
    rw [List.all_eq_true]
    intro e he
    cases hk : mlookup e.attrs "key" with
    | none => simp
    | some exk =>
      have hne := hth.2 (by decide) h hh e he exk hk
      simp [hk, hne]

/-! ## Claim C1: round trip of a family with no specializations

The next block of lemmas describes what survives the pretty-printer plus
the ElementTree write/parse round trip: tags, attributes and the child
structure are untouched, a leaf's text survives exactly when it is
non-empty, and only `tail` fields (which the deserializer never reads)
differ. -/

theorem indentXmlList_eq_map (l : List Xml) (lv : Nat) :
    indentXmlList l lv = l.map (fun e => indentXml e lv) := by
  induction l with
  | nil => rfl
  | cons c cs ih => simp [indentXmlList, ih]

theorem etRoundTripList_eq_map (l : List Xml) :
    etRoundTripList l = l.map etRoundTrip := by
  induction l with
  | nil => rfl
  | cons c cs ih => simp [etRoundTripList, ih]

theorem washed_tag (e : Xml) (lv : Nat) :
    (etRoundTrip (indentXml e lv)).tag = e.tag := by
  obtain ⟨t, a, x, c, tl⟩ := e
  cases c with
  | nil =>
    unfold indentXml
    split <;> rfl
  | cons c0 cs => rfl

theorem washed_attrs (e : Xml) (lv : Nat) :
    (etRoundTrip (indentXml e lv)).attrs = e.attrs := by
  obtain ⟨t, a, x, c, tl⟩ := e
  cases c with
  | nil =>
    unfold indentXml
    split <;> rfl
  | cons c0 cs => rfl

theorem washed_children (t : String) (a : List (String × String))
    (x : Option String) (c : List Xml) (tl : Option String) (lv : Nat) :
    (etRoundTrip (indentXml (Xml.elem t a x c tl) lv)).children
      = (setLastTail (indentXmlList c (lv + 1)) (indentStr lv)).map etRoundTrip := by
  cases c with
  | nil =>
    unfold indentXml
    split <;> rfl
  | cons c0 cs =>
    simp [indentXml, etRoundTrip, Xml.children, etRoundTripList_eq_map]

theorem washed_leaf_text (t : String) (a : List (String × String)) (s : String)
    (tl : Option String) (lv : Nat) :
    (etRoundTrip (indentXml (Xml.elem t a (some s) [] tl) lv)).text
      = if s = "" then none else some s := by
  unfold indentXml
  split <;> simp [etRoundTrip, Xml.text, normText]

/-- Replace an element's tail. -/
def Xml.withTail : Xml → Option String → Xml
  | .elem t a x c _, tl => .elem t a x c tl

theorem etRoundTrip_fixTail (i : String) (e : Xml) :
    ∃ tl', etRoundTrip (fixTail i e) = (etRoundTrip e).withTail tl' := by
  obtain ⟨t, a, x, c, tl⟩ := e
  by_cases h : pyBlank tl = true
  · exact ⟨normText (some i), by simp [fixTail, h, etRoundTrip, Xml.withTail]⟩
  · exact ⟨normText tl, by simp [fixTail, h, etRoundTrip, Xml.withTail]⟩

theorem setLastTail_mem (kids : List Xml) (i : String) (x : Xml)
    (hx : x ∈ setLastTail kids i) :
    ∃ y ∈ kids, x = y ∨ x = fixTail i y := by
  induction kids with
  | nil => simp [setLastTail] at hx
  | cons k rest ih =>
    cases rest with
    | nil =>
      simp only [setLastTail, List.mem_singleton] at hx
      exact ⟨k, List.mem_singleton.mpr rfl, Or.inr hx⟩
    | cons k2 rest2 =>
      simp only [setLastTail, List.mem_cons] at hx
      rcases hx with rfl | hx2
      · exact ⟨x, List.mem_cons_self x _, Or.inl rfl⟩
      · rcases ih (by simpa [setLastTail] using hx2) with ⟨y, hy, hxy⟩
        exact ⟨y, List.mem_cons_of_mem k hy, hxy⟩

/-- A fold whose step ignores tails is blind to the last-child tail fixup. -/
theorem foldl_washed_setLastTail {α : Type} (f : α → Xml → α)
    (hf : ∀ a e tl', f a (Xml.withTail e tl') = f a e) (kids : List Xml)
    (i : String) (init : α) :
    ((setLastTail kids i).map etRoundTrip).foldl f init
      = (kids.map etRoundTrip).foldl f init := by
  induction kids generalizing init with
  | nil => rfl
  | cons k rest ih =>
    cases rest with
    | nil =>
      simp only [setLastTail, List.map_cons, List.map_nil, List.foldl_cons,
        List.foldl_nil]
      rcases etRoundTrip_fixTail i k with ⟨tl', htl⟩
      rw [htl, hf]
    | cons k2 rest2 =>
      simp only [setLastTail, List.map_cons, List.foldl_cons]
      exact ih (f init (etRoundTrip k))

theorem mlookup_mem {α : Type} (l : List (String × α)) (k : String) (v : α)
    (h : mlookup l k = some v) : (k, v) ∈ l := by
  induction l with
  | nil => simp [mlookup] at h
  | cons hd t ih =>
    obtain ⟨k0, v0⟩ := hd
    by_cases h0 : k0 = k
    · subst h0
      have h3 : mlookup ((k0, v0) :: t) k0 = some v0 := by simp [mlookup]
      rw [h3] at h
      injection h with h4
      subst h4
      exact List.mem_cons_self _ _
    · simp only [mlookup, if_neg h0] at h
      exact List.mem_cons_of_mem _ (ih h)

theorem mupdate_foldl_append {α : Type} (l acc : List (String × α))
    (hfresh : ∀ kv ∈ l, mlookup acc kv.1 = none) (hnd : keysNodup l) :
    l.foldl (fun m kv => mupdate m kv.1 kv.2) acc = acc ++ l := by
  induction l generalizing acc with
  | nil => simp
  | cons kv rest ih =>
    obtain ⟨k, v⟩ := kv
    have hk : mlookup acc k = none := hfresh (k, v) (List.mem_cons_self _ _)
    have hnd1 := hnd
    rw [keysNodup] at hnd1
    simp only [List.map_cons, List.nodup_cons] at hnd1
    obtain ⟨hknotin, hndrest⟩ := hnd1
    rw [List.foldl_cons, mupdate_of_absent acc k v hk,
      ih (acc ++ [(k, v)]) ?_ hndrest]
    · simp
    · intro kv2 hkv2
      rw [mlookup_append]
      rw [hfresh kv2 (List.mem_cons_of_mem _ hkv2)]
      have hne : ¬k = kv2.1 := by
        intro he
        exact hknotin (List.mem_map.mpr ⟨kv2, hkv2, he.symm⟩)
      simp [mlookup, hne]

theorem filterMap_eq_map_of {α β : Type} (l : List α) (f : α → Option β)
    (g : α → β) (h : ∀ x ∈ l, f x = some (g x)) :
    l.filterMap f = l.map g := by
  induction l with
  | nil => rfl
  | cons a rest ih =>
    rw [List.filterMap_cons, h a (List.mem_cons_self _ _), List.map_cons,
      ih (fun x hx => h x (List.mem_cons_of_mem a hx))]

theorem eraseKey_sublist {α : Type} (m : List (String × α)) (k : String) :
    (eraseKey m k).Sublist m := by
  induction m with
  | nil => simp [eraseKey]
  | cons hd t ih =>
    obtain ⟨k0, v0⟩ := hd
    by_cases h0 : k0 = k
    · simp only [eraseKey, if_pos h0]
      exact List.sublist_cons_self _ _
    · simp only [eraseKey, if_neg h0]
      exact List.Sublist.cons₂ _ ih

theorem keysNodup_sublist {α : Type} (m m' : List (String × α))
    (hsub : m'.Sublist m) (hnd : keysNodup m) : keysNodup m' :=
  List.Nodup.sublist (List.Sublist.map Prod.fst hsub) hnd

theorem keysNodup_eraseKey {α : Type} (m : List (String × α)) (k : String)
    (hnd : keysNodup m) : keysNodup (eraseKey m k) :=
  keysNodup_sublist m _ (eraseKey_sublist m k) hnd

theorem mem_of_mem_eraseKey {α : Type} (m : List (String × α)) (k : String)
    (kv : String × α) (h : kv ∈ eraseKey m k) : kv ∈ m :=
  (eraseKey_sublist m k).mem h

theorem buildMapsStep_fdm (maps : Maps) (c : Profile)
    (h : c.definitionId = "fdmprinter") : buildMapsStep maps c = maps := by
  simp [buildMapsStep, h]

/-- A family entirely targeting `fdmprinter` yields empty grouping maps. -/
theorem buildMaps_all_fdm (family : List Profile)
    (h : ∀ c ∈ family, c.definitionId = "fdmprinter") :
    buildMaps family = ⟨[], []⟩ := by
  have haux : ∀ (fam : List Profile),
      (∀ c ∈ fam, c.definitionId = "fdmprinter") →
      ∀ acc : Maps, fam.foldl buildMapsStep acc = acc := by
    intro fam
    induction fam with
    | nil => intro _ acc; rfl
    | cons c f2 ih =>
      intro hall acc
      rw [List.foldl_cons,
        buildMapsStep_fdm acc c (hall c (List.mem_cons_self _ _))]
      exact ih (fun c2 hc2 => hall c2 (List.mem_cons_of_mem c hc2)) acc
  exact haux family h ⟨[], []⟩

theorem leafElem_ok (k : String) (v : Option String) (s : String)
    (h : v = some s) : leafElem k v = .ok (Xml.elem k [] v [] none) := by
  subst h
  rfl

theorem mapM_leafElem (l : List (String × Option String))
    (h : ∀ kv ∈ l, ∃ s, kv.2 = some s) :
    l.mapM (fun p => leafElem p.1 p.2)
      = .ok (l.map (fun kv => Xml.elem kv.1 [] kv.2 [] none)) := by
  induction l with
  | nil => rfl
  | cons kv rest ih =>
    rw [List.mapM_cons]
    rcases h kv (List.mem_cons_self _ _) with ⟨s, hs⟩
    rw [leafElem_ok kv.1 kv.2 s hs,
      ih (fun x hx => h x (List.mem_cons_of_mem kv hx))]
    rfl

theorem popTransient_sublist (md : List (String × Option String)) :
    (popTransient md).Sublist md := by
  unfold popTransient
  exact ((eraseKey_sublist _ _).trans ((eraseKey_sublist _ _).trans
    ((eraseKey_sublist _ _).trans (eraseKey_sublist _ _))))

theorem metadataRest_sublist (md : List (String × Option String)) :
    (metadataRest md).Sublist md := by
  unfold metadataRest
  exact ((eraseKey_sublist _ _).trans ((eraseKey_sublist _ _).trans
    ((eraseKey_sublist _ _).trans (popTransient_sublist md))))

theorem popBrand_some (md : List (String × Option String))
    (hv : ∀ kv ∈ md, ∃ s, kv.2 = some s) : ∃ s, popBrand md = some s := by
  unfold popBrand
  cases hm : mlookup (popTransient md) "brand" with
  | none => exact ⟨"", rfl⟩
  | some v =>
    rcases hv _ ((popTransient_sublist md).mem (mlookup_mem _ _ _ hm)) with ⟨s, hs⟩
    exact ⟨s, by simp [show v = some s from hs]⟩

theorem popMaterial_some (md : List (String × Option String))
    (hv : ∀ kv ∈ md, ∃ s, kv.2 = some s) : ∃ s, popMaterial md = some s := by
  unfold popMaterial
  cases hm : mlookup (eraseKey (popTransient md) "brand") "material" with
  | none => exact ⟨"", rfl⟩
  | some v =>
    rcases hv _ ((popTransient_sublist md).mem
      ((eraseKey_sublist _ _).mem (mlookup_mem _ _ _ hm))) with ⟨s, hs⟩
    exact ⟨s, by simp [show v = some s from hs]⟩

theorem popColor_some (md : List (String × Option String))
    (hv : ∀ kv ∈ md, ∃ s, kv.2 = some s) : ∃ s, popColor md = some s := by
  unfold popColor
  cases hm : mlookup (eraseKey (eraseKey (popTransient md) "brand")
      "material") "color_name" with
  | none => exact ⟨"", rfl⟩
  | some v =>
    rcases hv _ ((popTransient_sublist md).mem ((eraseKey_sublist _ _).mem
      ((eraseKey_sublist _ _).mem (mlookup_mem _ _ _ hm)))) with ⟨s, hs⟩
    exact ⟨s, by simp [show v = some s from hs]⟩

/-- With a family entirely on `fdmprinter` and string-valued metadata and
properties, the serializer body succeeds and produces exactly this tree. -/
theorem serializeBody_no_machines (defs : List (String × String))
    (reg : List Profile) (self : Profile)
    (hv : ∀ kv ∈ self.metadata, ∃ s, kv.2 = some s)
    (hpv : ∀ kv ∈ self.properties, ∃ s, kv.2 = some s)
    (hfam : ∀ c ∈ findByGUID reg (metaGetD self "GUID" none),
      c.definitionId = "fdmprinter") :
    serializeBody defs reg self = .ok (indentXml (Xml.elem "fdmmaterial"
        [("xmlns", "http://www.ultimaker.com/material")] none
        [Xml.elem "metadata" [] none
            (Xml.elem "name" [] none
                [Xml.elem "brand" [] (popBrand self.metadata) [] none,
                 Xml.elem "material" [] (popMaterial self.metadata) [] none,
                 Xml.elem "color" [] (popColor self.metadata) [] none] none
              :: (metadataRest self.metadata).map
                  (fun kv => Xml.elem kv.1 [] kv.2 [] none)) none,
         Xml.elem "properties" [] none
            (self.properties.map (fun kv => Xml.elem kv.1 [] kv.2 [] none))
            none,
         Xml.elem "settings" [] none
            (if self.definitionId = "fdmprinter" then
              self.settings.filterMap (fun p => addSettingElement p.1 p.2)
             else []) none] none) 0) := by
  rcases popBrand_some self.metadata hv with ⟨sb, hsb⟩
  rcases popMaterial_some self.metadata hv with ⟨sm, hsm⟩
  rcases popColor_some self.metadata hv with ⟨sc, hsc⟩
  have hrest : ∀ kv ∈ metadataRest self.metadata, ∃ s, kv.2 = some s :=
    fun kv hkv => hv kv ((metadataRest_sublist self.metadata).mem hkv)
  simp only [serializeBody]
  rw [leafElem_ok _ _ sb hsb, leafElem_ok _ _ sm hsm, leafElem_ok _ _ sc hsc,
    mapM_leafElem _ hrest, mapM_leafElem _ hpv, buildMaps_all_fdm _ hfam]
  simp [Bind.bind, Except.bind, pure, Except.pure, List.mapM.loop]

theorem withTail_tag (e : Xml) (tl : Option String) :
    (e.withTail tl).tag = e.tag := by
  obtain ⟨t, a, x, c, tl0⟩ := e
  rfl

theorem withTail_attrs (e : Xml) (tl : Option String) :
    (e.withTail tl).attrs = e.attrs := by
  obtain ⟨t, a, x, c, tl0⟩ := e
  rfl

theorem withTail_text (e : Xml) (tl : Option String) :
    (e.withTail tl).text = e.text := by
  obtain ⟨t, a, x, c, tl0⟩ := e
  rfl

theorem withTail_children (e : Xml) (tl : Option String) :
    (e.withTail tl).children = e.children := by
  obtain ⟨t, a, x, c, tl0⟩ := e
  rfl

theorem metaWalkStep_withTail (p : Profile) (e : Xml) (tl : Option String) :
    metaWalkStep p (e.withTail tl) = metaWalkStep p e := by
  obtain ⟨t, a, x, c, tl0⟩ := e
  rfl

theorem washedDoc_children (a : List (String × String)) (mE pE sE : Xml) :
    (etRoundTrip (indentXml
        (Xml.elem "fdmmaterial" a none [mE, pE, sE] none) 0)).children
      = [etRoundTrip (indentXml mE 1), etRoundTrip (indentXml pE 1),
         etRoundTrip (fixTail (indentStr 0) (indentXml sE 1))] := by
  rw [washed_children]
  simp [indentXmlList, setLastTail]

/-- The deserializer's four document projections on a washed serializer
tree with the canonical metadata/properties/settings children. -/
theorem entries_washedDoc (a : List (String × String)) (mdc prc stc : List Xml) :
    metadataEntriesOf (etRoundTrip (indentXml (Xml.elem "fdmmaterial" a none
        [Xml.elem "metadata" [] none mdc none,
         Xml.elem "properties" [] none prc none,
         Xml.elem "settings" [] none stc none] none) 0))
      = (setLastTail (indentXmlList mdc 2) (indentStr 1)).map etRoundTrip ∧
    propertiesEntriesOf (etRoundTrip (indentXml (Xml.elem "fdmmaterial" a none
        [Xml.elem "metadata" [] none mdc none,
         Xml.elem "properties" [] none prc none,
         Xml.elem "settings" [] none stc none] none) 0))
      = (setLastTail (indentXmlList prc 2) (indentStr 1)).map etRoundTrip ∧
    settingEntriesOf (etRoundTrip (indentXml (Xml.elem "fdmmaterial" a none
        [Xml.elem "metadata" [] none mdc none,
         Xml.elem "properties" [] none prc none,
         Xml.elem "settings" [] none stc none] none) 0))
      = ((setLastTail (indentXmlList stc 2) (indentStr 1)).map
          etRoundTrip).filter (fun e => e.tag = "setting") ∧
    machinesOf (etRoundTrip (indentXml (Xml.elem "fdmmaterial" a none
        [Xml.elem "metadata" [] none mdc none,
         Xml.elem "properties" [] none prc none,
         Xml.elem "settings" [] none stc none] none) 0))
      = ((setLastTail (indentXmlList stc 2) (indentStr 1)).map
          etRoundTrip).filter (fun e => e.tag = "machine") := by
  rcases etRoundTrip_fixTail (indentStr 0)
    (indentXml (Xml.elem "settings" [] none stc none) 1) with ⟨tl', htl⟩
  unfold metadataEntriesOf propertiesEntriesOf settingEntriesOf machinesOf
  rw [washedDoc_children, htl]
  simp only [List.filter_cons, List.filter_nil, washed_tag, withTail_tag]
  simp only [Xml.tag]
  simp [withTail_children, washed_children]

theorem metaWalk_setLastTail (p : Profile) (kids : List Xml) (i : String) :
    metaWalk p ((setLastTail kids i).map etRoundTrip)
      = metaWalk p (kids.map etRoundTrip) := by
  unfold metaWalk
  exact foldl_washed_setLastTail _
    (fun a e tl' => by cases a <;> simp [Bind.bind, Except.bind,
      metaWalkStep_withTail]) kids i _

theorem metaWalkStep_washed_leaf (p : Profile) (k : String) (s : String)
    (hk : ¬k = "name") (hs : ¬s = "") :
    metaWalkStep p (etRoundTrip (indentXml (Xml.elem k [] (some s) [] none) 2))
      = .ok (metaAdd p k (some s)) := by
  unfold metaWalkStep
  rw [washed_tag]
  simp only [Xml.tag, if_neg hk]
  rw [washed_leaf_text]
  simp [hs]

theorem metaWalk_washed_leaves (l : List (String × Option String)) (p : Profile)
    (hv : ∀ kv ∈ l, ∃ s, kv.2 = some s ∧ s ≠ "")
    (hname : ∀ kv ∈ l, ¬kv.1 = "name") :
    metaWalk p ((l.map (fun kv => Xml.elem kv.1 [] kv.2 [] none)).map
        (fun e => etRoundTrip (indentXml e 2)))
      = .ok (l.foldl (fun q kv => metaAdd q kv.1 kv.2) p) := by
  induction l generalizing p with
  | nil => rfl
  | cons kv rest ih =>
    rcases hv kv (List.mem_cons_self _ _) with ⟨s, hs, hsne⟩
    have hstep : metaWalkStep p
        (etRoundTrip (indentXml (Xml.elem kv.1 [] kv.2 [] none) 2))
        = .ok (metaAdd p kv.1 kv.2) := by
      rw [hs]
      exact metaWalkStep_washed_leaf p kv.1 s
        (hname kv (List.mem_cons_self _ _)) hsne
    simp only [List.map_cons, List.foldl_cons]
    unfold metaWalk
    rw [List.foldl_cons]
    have hinit : (Except.ok p : Except DErr Profile).bind
        (fun q => metaWalkStep q
          (etRoundTrip (indentXml (Xml.elem kv.1 [] kv.2 [] none) 2)))
        = .ok (metaAdd p kv.1 kv.2) := by
      simpa [Bind.bind, Except.bind] using hstep
    rw [hinit]
    exact ih (metaAdd p kv.1 kv.2)
      (fun x hx => hv x (List.mem_cons_of_mem kv hx))
      (fun x hx => hname x (List.mem_cons_of_mem kv hx))

theorem metaAdd_foldl (l : List (String × Option String)) (p : Profile) :
    l.foldl (fun q kv => metaAdd q kv.1 kv.2) p
      = { p with metadata := l.foldl (fun m kv => mupdate m kv.1 kv.2) p.metadata } := by
  induction l generalizing p with
  | nil => rfl
  | cons kv rest ih =>
    rw [List.foldl_cons, List.foldl_cons, ih]
    rfl

theorem metaWalkStep_washed_name (p : Profile) (vb vm vc : Option String)
    (sb sm sc : String) (hb : vb = some sb) (hbne : ¬sb = "")
    (hm : vm = some sm) (hmne : ¬sm = "") (hc : vc = some sc) (hcne : ¬sc = "") :
    metaWalkStep p (etRoundTrip (indentXml (Xml.elem "name" [] none
        [Xml.elem "brand" [] vb [] none, Xml.elem "material" [] vm [] none,
         Xml.elem "color" [] vc [] none] none) 2))
      = .ok (metaAdd (metaAdd (metaAdd { p with name := vm } "brand" vb)
          "material" vm) "color_name" vc) := by
  subst hb hm hc
  rcases etRoundTrip_fixTail (indentStr 2)
    (indentXml (Xml.elem "color" [] (some sc) [] none) 3) with ⟨tl', htl⟩
  unfold metaWalkStep
  rw [washed_tag]
  simp only [Xml.tag, if_pos rfl]
  unfold findChild
  rw [washed_children]
  simp only [indentXmlList, setLastTail, List.map_cons, List.map_nil, htl]
  simp only [List.find?, washed_tag, withTail_tag]
  simp only [Xml.tag]
  simp [withTail_text, washed_leaf_text, hbne, hmne, hcne]

theorem propWalk_setLastTail (kids : List Xml) (i : String) :
    propWalk ((setLastTail kids i).map etRoundTrip)
      = propWalk (kids.map etRoundTrip) := by
  unfold propWalk
  exact foldl_washed_setLastTail _
    (fun a e tl' => by
      obtain ⟨t, at0, x, c, tl0⟩ := e
      rfl) kids i _

theorem propWalk_washed_leaves (l : List (String × Option String))
    (hv : ∀ kv ∈ l, ∃ s, kv.2 = some s ∧ s ≠ "") :
    propWalk ((l.map (fun kv => Xml.elem kv.1 [] kv.2 [] none)).map
        (fun e => etRoundTrip (indentXml e 2)))
      = l.foldl (fun m kv => mupdate m kv.1 kv.2) [] := by
  unfold propWalk
  have haux : ∀ (l2 : List (String × Option String))
      (acc : List (String × Option String)),
      (∀ kv ∈ l2, ∃ s, kv.2 = some s ∧ s ≠ "") →
      ((l2.map (fun kv => Xml.elem kv.1 [] kv.2 [] none)).map
          (fun e => etRoundTrip (indentXml e 2))).foldl
        (fun m e => mupdate m e.tag e.text) acc
        = l2.foldl (fun m kv => mupdate m kv.1 kv.2) acc := by
    intro l2
    induction l2 with
    | nil => intro acc _; rfl
    | cons kv rest ih =>
      intro acc hv2
      rcases hv2 kv (List.mem_cons_self _ _) with ⟨s, hs, hsne⟩
      simp only [List.map_cons, List.foldl_cons]
      rw [washed_tag, hs, washed_leaf_text]
      simp only [Xml.tag, if_neg hsne]
      rw [← hs]
      exact ih _ (fun x hx => hv2 x (List.mem_cons_of_mem kv hx))
  exact haux l [] hv

theorem washed_map_tags (l : List Xml) (T : String) (lv : Nat) (i : String)
    (h : ∀ e ∈ l, e.tag = T) :
    ∀ x ∈ (setLastTail (indentXmlList l lv) i).map etRoundTrip, x.tag = T := by
  intro x hx
  rcases List.mem_map.mp hx with ⟨y, hy, rfl⟩
  rcases setLastTail_mem _ _ _ hy with ⟨z, hz, hyz⟩
  rw [indentXmlList_eq_map] at hz
  rcases List.mem_map.mp hz with ⟨w, hw, rfl⟩
  rcases hyz with rfl | rfl
  · rw [washed_tag]
    exact h w hw
  · rcases etRoundTrip_fixTail i (indentXml w lv) with ⟨tl', htl⟩
    rw [htl, withTail_tag, washed_tag]
    exact h w hw

theorem globalStep_withTail (acc : Profile × List Profile ×
    List (String × Option String)) (e : Xml) (tl : Option String) :
    globalStep acc (e.withTail tl) = globalStep acc e := by
  obtain ⟨t, a, x, c, tl0⟩ := e
  rfl

theorem globalWalk_setLastTail (reg : List Profile) (p : Profile)
    (kids : List Xml) (i : String) :
    globalWalk reg p ((setLastTail kids i).map etRoundTrip)
      = globalWalk reg p (kids.map etRoundTrip) := by
  unfold globalWalk
  exact foldl_washed_setLastTail _
    (fun a e tl' => globalStep_withTail a e tl') kids i _

theorem globalWalk_washed_settings (l : List (String × Option String))
    (acc : Profile × List Profile × List (String × Option String))
    (hro : acc.1.readOnly = false)
    (hv : ∀ kv ∈ l, ∃ s, kv.2 = some s ∧ ¬s = "" ∧
      (findKey materialSettingMap kv.1).isSome = true) :
    ∃ reg' gsv',
      ((l.map (fun kv => Xml.elem "setting"
            [("key", (findKey materialSettingMap kv.1).getD "")]
            (some (strOf kv.2)) [] none)).map
          (fun e => etRoundTrip (indentXml e 2))).foldl globalStep acc
        = ({ acc.1 with
              settings := l.foldl (fun m kv => mupdate m kv.1 kv.2)
                acc.1.settings },
           reg', gsv') := by
  induction l generalizing acc with
  | nil =>
    refine ⟨acc.2.1, acc.2.2, ?_⟩
    simp only [List.map_nil, List.foldl_nil]
  | cons kv rest ih =>
    rcases hv kv (List.mem_cons_self _ _) with ⟨s, hs, hsne, hsome⟩
    rcases Option.isSome_iff_exists.mp hsome with ⟨ext, hext⟩
    have hrt : mlookup materialSettingMap ext = some kv.1 :=
      findKey_mlookup materialSettingMap kv.1 ext (by decide) hext
    have ha : mlookup [("key", (findKey materialSettingMap kv.1).getD "")]
        "key" = some ext := by
      rw [hext]
      simp [mlookup]
    have hstep : globalStep acc (etRoundTrip (indentXml (Xml.elem "setting"
        [("key", (findKey materialSettingMap kv.1).getD "")]
        (some (strOf kv.2)) [] none) 2))
        = ({ acc.1 with settings := mupdate acc.1.settings kv.1 kv.2 },
           acc.2.1.map (fun c => if sameGUID c (metaGetD { acc.1 with
               settings := mupdate acc.1.settings kv.1 kv.2 } "GUID" none)
             then { c with dirty := true } else c),
           mupdate acc.2.2 kv.1 kv.2) := by
      unfold globalStep
      rw [washed_attrs]
      simp only [Xml.attrs]
      rw [ha]
      dsimp only
      rw [hrt]
      dsimp only
      rw [hs]
      simp only [strOf]
      rw [washed_leaf_text]
      simp only [if_neg hsne]
      unfold setPropertyD
      rw [hro]
      simp
    simp only [List.map_cons, List.foldl_cons, hstep]
    rcases ih ({ acc.1 with settings := mupdate acc.1.settings kv.1 kv.2 },
        _, mupdate acc.2.2 kv.1 kv.2) (by simpa using hro)
        (fun x hx => hv x (List.mem_cons_of_mem kv hx)) with ⟨reg', gsv', hrec⟩
    refine ⟨reg', gsv', ?_⟩
    rw [hrec]

theorem mlookup_eq_none_of_not_mem {α : Type} (l : List (String × α))
    (k : String) (h : k ∉ l.map Prod.fst) : mlookup l k = none := by
  induction l with
  | nil => rfl
  | cons hd t ih =>
    obtain ⟨k0, v0⟩ := hd
    simp only [List.map_cons, List.mem_cons] at h
    push_neg at h
    obtain ⟨hk, ht⟩ := h
    have hne : ¬k0 = k := fun he => hk he.symm
    simp only [mlookup, if_neg hne]
    exact ih ht

theorem mlookup_isSome_of_mem {α : Type} (l : List (String × α))
    (kv : String × α) (h : kv ∈ l) : (mlookup l kv.1).isSome = true := by
  induction l with
  | nil => simp at h
  | cons hd t ih =>
    obtain ⟨k0, v0⟩ := hd
    rcases List.mem_cons.mp h with rfl | hmem
    · simp [mlookup]
    · by_cases h0 : k0 = kv.1
      · simp [mlookup, h0]
      · simp only [mlookup, if_neg h0]
        exact ih hmem

theorem mlookup_eraseKey_self {α : Type} (m : List (String × α)) (k : String)
    (hnd : keysNodup m) : mlookup (eraseKey m k) k = none := by
  induction m with
  | nil => rfl
  | cons hd t ih =>
    obtain ⟨k0, v0⟩ := hd
    have hnd1 := hnd
    rw [keysNodup] at hnd1
    simp only [List.map_cons, List.nodup_cons] at hnd1
    obtain ⟨hk0, hndt⟩ := hnd1
    by_cases h0 : k0 = k
    · subst h0
      simp only [eraseKey, if_pos rfl]
      exact mlookup_eq_none_of_not_mem t k0 hk0
    · simp only [eraseKey, if_neg h0, mlookup, if_neg h0]
      exact ih hndt

theorem mem_eraseKey_ne {α : Type} (m : List (String × α)) (k : String)
    (hnd : keysNodup m) (kv : String × α) (h : kv ∈ eraseKey m k) :
    ¬kv.1 = k := by
  intro he
  have h1 := mlookup_isSome_of_mem (eraseKey m k) kv h
  rw [he, mlookup_eraseKey_self m k hnd] at h1
  simp at h1

theorem keysNodup_popTransient (md : List (String × Option String))
    (hnd : keysNodup md) : keysNodup (popTransient md) :=
  keysNodup_sublist md _ (popTransient_sublist md) hnd

/-- A metadata entry surviving the seven pops has none of the popped keys. -/
theorem metadataRest_keys (md : List (String × Option String))
    (hnd : keysNodup md) (kv : String × Option String)
    (h : kv ∈ metadataRest md) :
    ¬kv.1 = "status" ∧ ¬kv.1 = "variant" ∧ ¬kv.1 = "type" ∧
    ¬kv.1 = "base_file" ∧ ¬kv.1 = "brand" ∧ ¬kv.1 = "material" ∧
    ¬kv.1 = "color_name" := by
  have h1 : kv ∈ md := (metadataRest_sublist md).mem h
  unfold metadataRest at h
  unfold popTransient at h
  have n0 : keysNodup (eraseKey md "status") := keysNodup_eraseKey _ _ hnd
  have n1 : keysNodup (eraseKey (eraseKey md "status") "variant") :=
    keysNodup_eraseKey _ _ n0
  have n2 : keysNodup (eraseKey (eraseKey (eraseKey md "status") "variant")
      "type") := keysNodup_eraseKey _ _ n1
  have n3 : keysNodup (eraseKey (eraseKey (eraseKey (eraseKey md "status")
      "variant") "type") "base_file") := keysNodup_eraseKey _ _ n2
  have n4 : keysNodup (eraseKey (eraseKey (eraseKey (eraseKey (eraseKey md
      "status") "variant") "type") "base_file") "brand") :=
    keysNodup_eraseKey _ _ n3
  have n5 : keysNodup (eraseKey (eraseKey (eraseKey (eraseKey (eraseKey
      (eraseKey md "status") "variant") "type") "base_file") "brand")
      "material") := keysNodup_eraseKey _ _ n4
  have m6 := h
  have m5 := (eraseKey_sublist _ "color_name").mem m6
  have m4 := (eraseKey_sublist _ "material").mem m5
  have m3 := (eraseKey_sublist _ "brand").mem m4
  have m2 := (eraseKey_sublist _ "base_file").mem m3
  have m1 := (eraseKey_sublist _ "type").mem m2
  exact ⟨mem_eraseKey_ne _ _ hnd kv ((eraseKey_sublist _ "variant").mem m1),
    mem_eraseKey_ne _ _ n0 kv m1, mem_eraseKey_ne _ _ n1 kv m2,
    mem_eraseKey_ne _ _ n2 kv m3, mem_eraseKey_ne _ _ n3 kv m4,
    mem_eraseKey_ne _ _ n4 kv m5, mem_eraseKey_ne _ _ n5 kv m6⟩

theorem mlookup_metadataRest (md : List (String × Option String)) (k : String)
    (h1 : k ≠ "status") (h2 : k ≠ "variant") (h3 : k ≠ "type")
    (h4 : k ≠ "base_file") (h5 : k ≠ "brand") (h6 : k ≠ "material")
    (h7 : k ≠ "color_name") :
    mlookup (metadataRest md) k = mlookup md k := by
  unfold metadataRest popTransient
  rw [mlookup_eraseKey_ne _ _ _ h7, mlookup_eraseKey_ne _ _ _ h6,
    mlookup_eraseKey_ne _ _ _ h5, mlookup_eraseKey_ne _ _ _ h4,
    mlookup_eraseKey_ne _ _ _ h3, mlookup_eraseKey_ne _ _ _ h2,
    mlookup_eraseKey_ne _ _ _ h1]

theorem mlookup_popTransient (md : List (String × Option String)) (k : String)
    (h1 : k ≠ "status") (h2 : k ≠ "variant") (h3 : k ≠ "type")
    (h4 : k ≠ "base_file") :
    mlookup (popTransient md) k = mlookup md k := by
  unfold popTransient
  rw [mlookup_eraseKey_ne _ _ _ h4, mlookup_eraseKey_ne _ _ _ h3,
    mlookup_eraseKey_ne _ _ _ h2, mlookup_eraseKey_ne _ _ _ h1]

theorem filter_all_of {α : Type} (l : List α) (p : α → Bool)
    (h : ∀ a ∈ l, p a = true) : l.filter p = l :=
  List.filter_eq_self.mpr h

theorem filter_none_of {α : Type} (l : List α) (p : α → Bool)
    (h : ∀ a ∈ l, p a = false) : l.filter p = [] := by
  induction l with
  | nil => rfl
  | cons a t ih =>
    rw [List.filter_cons, if_neg (by simp [h a (List.mem_cons_self _ _)]),
      ih (fun x hx => h x (List.mem_cons_of_mem a hx))]

theorem floatCheck_ok (pv : List (String × Option String)) (key : String)
    (hv : ∀ kv ∈ pv, ∃ s, kv.2 = some s ∧ s ≠ "")
    (hf : ∀ s, mlookup pv key = some (some s) → pyFloatOk s = true) :
    floatCheck pv key = .ok () := by
  unfold floatCheck
  cases hm : mlookup pv key with
  | none => rfl
  | some w =>
    rcases hv _ (mlookup_mem _ _ _ hm) with ⟨s, hs, _⟩
    have hws : w = some s := hs
    subst hws
    simp [hf s hm, pure, Except.pure]

theorem metaWalk_cons_ok (p q : Profile) (e : Xml) (es : List Xml)
    (h : metaWalkStep p e = .ok q) : metaWalk p (e :: es) = metaWalk q es := by
  unfold metaWalk
  rw [List.foldl_cons]
  have hinit : (Except.ok p : Except DErr Profile).bind
      (fun r => metaWalkStep r e) = .ok q := by
    simpa [Bind.bind, Except.bind] using h
  rw [hinit]

/-- Deserializing the washed serializer output of a specialization-free,
well-formed profile into a fresh profile reconstructs the metadata (with
`type`/`status` re-added in front), the properties and the settings. -/
theorem deserialize_washed (defs2 : List (String × String))
    (reg2 : List Profile) (self fresh : Profile)
    (hmdnd : keysNodup self.metadata)
    (hmdv : ∀ kv ∈ self.metadata, ∃ s, kv.2 = some s ∧ s ≠ "")
    (hmdname : ∀ kv ∈ self.metadata, ¬kv.1 = "name")
    (hbrand : (mlookup self.metadata "brand").isSome = true)
    (hmat : (mlookup self.metadata "material").isSome = true)
    (hcol : (mlookup self.metadata "color_name").isSome = true)
    (hdesc : (mlookup self.metadata "description").isSome = true)
    (hadh : (mlookup self.metadata "adhesion_info").isSome = true)
    (hpnd : keysNodup self.properties)
    (hpv : ∀ kv ∈ self.properties, ∃ s, kv.2 = some s ∧ s ≠ "")
    (hfloatD : ∀ s, mlookup self.properties "diameter" = some (some s) →
      pyFloatOk s = true)
    (hfloatE : ∀ s, mlookup self.properties "density" = some (some s) →
      pyFloatOk s = true)
    (hsnd : keysNodup self.settings)
    (hsv : ∀ kv ∈ self.settings, ∃ s, kv.2 = some s ∧ ¬s = "" ∧
      (findKey materialSettingMap kv.1).isSome = true)
    (hfrm : fresh.metadata = []) (hfrp : fresh.properties = [])
    (hfrs : fresh.settings = []) (hfro : fresh.readOnly = false)
    (hdefs2 : (mlookup defs2 "fdmprinter").isSome = true) :
    ∃ out reg',
      deserialize defs2 reg2 fresh (etRoundTrip (indentXml
        (Xml.elem "fdmmaterial"
          [("xmlns", "http://www.ultimaker.com/material")] none
          [Xml.elem "metadata" [] none
              (Xml.elem "name" [] none
                  [Xml.elem "brand" [] (popBrand self.metadata) [] none,
                   Xml.elem "material" [] (popMaterial self.metadata) [] none,
                   Xml.elem "color" [] (popColor self.metadata) [] none] none
                :: (metadataRest self.metadata).map
                    (fun kv => Xml.elem kv.1 [] kv.2 [] none)) none,
           Xml.elem "properties" [] none
              (self.properties.map (fun kv => Xml.elem kv.1 [] kv.2 [] none))
              none,
           Xml.elem "settings" [] none
              (self.settings.filterMap (fun p => addSettingElement p.1 p.2))
              none] none) 0)) = .ok (out, reg') ∧
      out.metadata = [("type", some "material"), ("status", some "unknown"),
          ("brand", popBrand self.metadata),
          ("material", popMaterial self.metadata),
          ("color_name", popColor self.metadata)]
        ++ metadataRest self.metadata ∧
      out.properties = self.properties ∧
      out.settings = self.settings := by
  -- the three popped name-block values are nonempty strings
  have hb2 : ∃ sb, popBrand self.metadata = some sb ∧ ¬sb = "" := by
    rcases Option.isSome_iff_exists.mp hbrand with ⟨w, hw⟩
    rcases hmdv _ (mlookup_mem _ _ _ hw) with ⟨sb, hsb, hsbne⟩
    refine ⟨sb, ?_, hsbne⟩
    unfold popBrand
    rw [mlookup_popTransient _ _ (by decide) (by decide) (by decide)
      (by decide), hw]
    simpa using hsb
  have hm2 : ∃ sm, popMaterial self.metadata = some sm ∧ ¬sm = "" := by
    rcases Option.isSome_iff_exists.mp hmat with ⟨w, hw⟩
    rcases hmdv _ (mlookup_mem _ _ _ hw) with ⟨sm, hsm, hsmne⟩
    refine ⟨sm, ?_, hsmne⟩
    unfold popMaterial
    rw [mlookup_eraseKey_ne _ _ _ (by decide),
      mlookup_popTransient _ _ (by decide) (by decide) (by decide)
        (by decide), hw]
    simpa using hsm
  have hc2 : ∃ sc, popColor self.metadata = some sc ∧ ¬sc = "" := by
    rcases Option.isSome_iff_exists.mp hcol with ⟨w, hw⟩
    rcases hmdv _ (mlookup_mem _ _ _ hw) with ⟨sc, hsc, hscne⟩
    refine ⟨sc, ?_, hscne⟩
    unfold popColor
    rw [mlookup_eraseKey_ne _ _ _ (by decide),
      mlookup_eraseKey_ne _ _ _ (by decide),
      mlookup_popTransient _ _ (by decide) (by decide) (by decide)
        (by decide), hw]
    simpa using hsc
  rcases hb2 with ⟨sb, hvb, hsbne⟩
  rcases hm2 with ⟨sm, hvm, hsmne⟩
  rcases hc2 with ⟨sc, hvc, hscne⟩
  have hrestv : ∀ kv ∈ metadataRest self.metadata, ∃ s, kv.2 = some s ∧ s ≠ "" :=
    fun kv hkv => hmdv kv ((metadataRest_sublist self.metadata).mem hkv)
  have hrestname : ∀ kv ∈ metadataRest self.metadata, ¬kv.1 = "name" :=
    fun kv hkv => hmdname kv ((metadataRest_sublist self.metadata).mem hkv)
  -- the settings children are a map over the profile's own settings
  have hstc : self.settings.filterMap (fun p => addSettingElement p.1 p.2)
      = self.settings.map (fun kv => Xml.elem "setting"
          [("key", (findKey materialSettingMap kv.1).getD "")]
          (some (strOf kv.2)) [] none) := by
    apply filterMap_eq_map_of
    intro kv hkv
    rcases hsv kv hkv with ⟨s, _, _, hsome⟩
    rcases Option.isSome_iff_exists.mp hsome with ⟨ext, hext⟩
    unfold addSettingElement
    rw [hext]
    simp
  rcases entries_washedDoc
      [("xmlns", "http://www.ultimaker.com/material")]
      (Xml.elem "name" [] none
          [Xml.elem "brand" [] (popBrand self.metadata) [] none,
           Xml.elem "material" [] (popMaterial self.metadata) [] none,
           Xml.elem "color" [] (popColor self.metadata) [] none] none
        :: (metadataRest self.metadata).map
            (fun kv => Xml.elem kv.1 [] kv.2 [] none))
      (self.properties.map (fun kv => Xml.elem kv.1 [] kv.2 [] none))
      (self.settings.filterMap (fun p => addSettingElement p.1 p.2))
    with ⟨hME, hPE, hSE, hMA⟩
  -- stage 0: type and status
  have hp0md : (metaAdd (metaAdd fresh "type" (some "material")) "status"
      (some "unknown")).metadata
      = [("type", some "material"), ("status", some "unknown")] := by
    simp [metaAdd, hfrm, mupdate]
  -- stage 1: the metadata walk
  have hwalk : metaWalk (metaAdd (metaAdd fresh "type" (some "material"))
      "status" (some "unknown"))
      (metadataEntriesOf (etRoundTrip (indentXml (Xml.elem "fdmmaterial"
        [("xmlns", "http://www.ultimaker.com/material")] none
        [Xml.elem "metadata" [] none
            (Xml.elem "name" [] none
                [Xml.elem "brand" [] (popBrand self.metadata) [] none,
                 Xml.elem "material" [] (popMaterial self.metadata) [] none,
                 Xml.elem "color" [] (popColor self.metadata) [] none] none
              :: (metadataRest self.metadata).map
                  (fun kv => Xml.elem kv.1 [] kv.2 [] none)) none,
         Xml.elem "properties" [] none
            (self.properties.map (fun kv => Xml.elem kv.1 [] kv.2 [] none))
            none,
         Xml.elem "settings" [] none
            (self.settings.filterMap (fun p => addSettingElement p.1 p.2))
            none] none) 0)))
      = .ok { metaAdd (metaAdd (metaAdd { metaAdd (metaAdd fresh "type"
            (some "material")) "status" (some "unknown") with
              name := popMaterial self.metadata }
            "brand" (popBrand self.metadata))
            "material" (popMaterial self.metadata))
            "color_name" (popColor self.metadata) with
          metadata := (metadataRest self.metadata).foldl
            (fun m kv => mupdate m kv.1 kv.2)
            (metaAdd (metaAdd (metaAdd { metaAdd (metaAdd fresh "type"
                (some "material")) "status" (some "unknown") with
                  name := popMaterial self.metadata }
                "brand" (popBrand self.metadata))
                "material" (popMaterial self.metadata))
                "color_name" (popColor self.metadata)).metadata } := by
    rw [hME, metaWalk_setLastTail, indentXmlList_eq_map, List.map_cons,
      List.map_cons]
    rw [metaWalk_cons_ok _ _ _ _ (metaWalkStep_washed_name _ _ _ _ sb sm sc
      hvb hsbne hvm hsmne hvc hscne)]
    have hleaves := metaWalk_washed_leaves (metadataRest self.metadata)
      (metaAdd (metaAdd (metaAdd { metaAdd (metaAdd fresh "type"
          (some "material")) "status" (some "unknown") with
            name := popMaterial self.metadata }
          "brand" (popBrand self.metadata))
          "material" (popMaterial self.metadata))
          "color_name" (popColor self.metadata)) hrestv hrestname
    rw [metaAdd_foldl] at hleaves
    simpa only [List.map_map, Function.comp] using hleaves
  -- dict-key facts for the reassembled metadata
  have hndrest : keysNodup (metadataRest self.metadata) :=
    keysNodup_sublist self.metadata _ (metadataRest_sublist self.metadata) hmdnd
  have hfreshk : ∀ kv ∈ metadataRest self.metadata,
      mlookup [("type", (some "material" : Option String)),
        ("status", some "unknown"), ("brand", popBrand self.metadata),
        ("material", popMaterial self.metadata),
        ("color_name", popColor self.metadata)] kv.1 = none := by
    intro kv hkv
    obtain ⟨h1, h2, h3, h4, h5, h6, h7⟩ :=
      metadataRest_keys self.metadata hmdnd kv hkv
    have g1 : ¬"type" = kv.1 := fun he => h3 he.symm
    have g2 : ¬"status" = kv.1 := fun he => h1 he.symm
    have g3 : ¬"brand" = kv.1 := fun he => h5 he.symm
    have g4 : ¬"material" = kv.1 := fun he => h6 he.symm
    have g5 : ¬"color_name" = kv.1 := fun he => h7 he.symm
    simp [mlookup, g1, g2, g3, g4, g5]
  -- the metadata walk in record-literal form
  have hwalk2 : metaWalk (metaAdd (metaAdd fresh "type" (some "material"))
      "status" (some "unknown"))
      (metadataEntriesOf (etRoundTrip (indentXml (Xml.elem "fdmmaterial"
        [("xmlns", "http://www.ultimaker.com/material")] none
        [Xml.elem "metadata" [] none
            (Xml.elem "name" [] none
                [Xml.elem "brand" [] (popBrand self.metadata) [] none,
                 Xml.elem "material" [] (popMaterial self.metadata) [] none,
                 Xml.elem "color" [] (popColor self.metadata) [] none] none
              :: (metadataRest self.metadata).map
                  (fun kv => Xml.elem kv.1 [] kv.2 [] none)) none,
         Xml.elem "properties" [] none
            (self.properties.map (fun kv => Xml.elem kv.1 [] kv.2 [] none))
            none,
         Xml.elem "settings" [] none
            (self.settings.filterMap (fun p => addSettingElement p.1 p.2))
            none] none) 0)))
      = .ok (Profile.mk fresh.id (popMaterial self.metadata)
          ([("type", some "material"), ("status", some "unknown"),
            ("brand", popBrand self.metadata),
            ("material", popMaterial self.metadata),
            ("color_name", popColor self.metadata)]
            ++ metadataRest self.metadata)
          fresh.properties fresh.definitionId fresh.settings fresh.readOnly
          fresh.dirty) := by
    rw [hwalk]
    have hbase : (metaAdd (metaAdd (metaAdd { metaAdd (metaAdd fresh "type"
        (some "material")) "status" (some "unknown") with
          name := popMaterial self.metadata }
        "brand" (popBrand self.metadata))
        "material" (popMaterial self.metadata))
        "color_name" (popColor self.metadata)).metadata
        = [("type", some "material"), ("status", some "unknown"),
           ("brand", popBrand self.metadata),
           ("material", popMaterial self.metadata),
           ("color_name", popColor self.metadata)] := by
      simp [metaAdd, hfrm, mupdate]
    rw [hbase, mupdate_foldl_append _ _ hfreshk hndrest]
    rfl
  -- description / adhesion_info survive and block the defaulting branches
  rcases Option.isSome_iff_exists.mp hdesc with ⟨wd, hwd⟩
  rcases Option.isSome_iff_exists.mp hadh with ⟨wa, hwa⟩
  have hdescNone : (mlookup
      ([("type", (some "material" : Option String)), ("status", some "unknown"),
        ("brand", popBrand self.metadata),
        ("material", popMaterial self.metadata),
        ("color_name", popColor self.metadata)]
        ++ metadataRest self.metadata) "description").isNone = false := by
    rw [mlookup_append]
    have h1 : mlookup [("type", (some "material" : Option String)),
        ("status", some "unknown"), ("brand", popBrand self.metadata),
        ("material", popMaterial self.metadata),
        ("color_name", popColor self.metadata)] "description" = none := rfl
    rw [h1, mlookup_metadataRest self.metadata "description" (by decide)
      (by decide) (by decide) (by decide) (by decide) (by decide) (by decide),
      hwd]
    rfl
  have hadhNone : (mlookup
      ([("type", (some "material" : Option String)), ("status", some "unknown"),
        ("brand", popBrand self.metadata),
        ("material", popMaterial self.metadata),
        ("color_name", popColor self.metadata)]
        ++ metadataRest self.metadata) "adhesion_info").isNone = false := by
    rw [mlookup_append]
    have h1 : mlookup [("type", (some "material" : Option String)),
        ("status", some "unknown"), ("brand", popBrand self.metadata),
        ("material", popMaterial self.metadata),
        ("color_name", popColor self.metadata)] "adhesion_info" = none := rfl
    rw [h1, mlookup_metadataRest self.metadata "adhesion_info" (by decide)
      (by decide) (by decide) (by decide) (by decide) (by decide) (by decide),
      hwa]
    rfl
  -- the properties walk rebuilds the property dict
  have hprops2 : propWalk (propertiesEntriesOf (etRoundTrip (indentXml
      (Xml.elem "fdmmaterial"
        [("xmlns", "http://www.ultimaker.com/material")] none
        [Xml.elem "metadata" [] none
            (Xml.elem "name" [] none
                [Xml.elem "brand" [] (popBrand self.metadata) [] none,
                 Xml.elem "material" [] (popMaterial self.metadata) [] none,
                 Xml.elem "color" [] (popColor self.metadata) [] none] none
              :: (metadataRest self.metadata).map
                  (fun kv => Xml.elem kv.1 [] kv.2 [] none)) none,
         Xml.elem "properties" [] none
            (self.properties.map (fun kv => Xml.elem kv.1 [] kv.2 [] none))
            none,
         Xml.elem "settings" [] none
            (self.settings.filterMap (fun p => addSettingElement p.1 p.2))
            none] none) 0))) = self.properties := by
    rw [hPE, propWalk_setLastTail, indentXmlList_eq_map]
    have h1 := propWalk_washed_leaves self.properties hpv
    rw [mupdate_foldl_append self.properties [] (fun kv _ => rfl) hpnd,
      List.nil_append] at h1
    simpa only [List.map_map, Function.comp] using h1
  -- every serialized setting child is tagged "setting"
  have htags : ∀ e ∈ self.settings.filterMap
      (fun p => addSettingElement p.1 p.2), e.tag = "setting" := by
    rw [hstc]
    intro e he
    rcases List.mem_map.mp he with ⟨kv, _, rfl⟩
    rfl
  have hSE2 : settingEntriesOf (etRoundTrip (indentXml (Xml.elem "fdmmaterial"
      [("xmlns", "http://www.ultimaker.com/material")] none
      [Xml.elem "metadata" [] none
          (Xml.elem "name" [] none
              [Xml.elem "brand" [] (popBrand self.metadata) [] none,
               Xml.elem "material" [] (popMaterial self.metadata) [] none,
               Xml.elem "color" [] (popColor self.metadata) [] none] none
            :: (metadataRest self.metadata).map
                (fun kv => Xml.elem kv.1 [] kv.2 [] none)) none,
       Xml.elem "properties" [] none
          (self.properties.map (fun kv => Xml.elem kv.1 [] kv.2 [] none))
          none,
       Xml.elem "settings" [] none
          (self.settings.filterMap (fun p => addSettingElement p.1 p.2))
          none] none) 0))
      = (setLastTail (indentXmlList
          (self.settings.filterMap (fun p => addSettingElement p.1 p.2)) 2)
          (indentStr 1)).map etRoundTrip := by
    rw [hSE]
    exact filter_all_of _ _ (fun e he => by
      rw [washed_map_tags _ "setting" 2 _ htags e he]
      decide)
  have hMA2 : machinesOf (etRoundTrip (indentXml (Xml.elem "fdmmaterial"
      [("xmlns", "http://www.ultimaker.com/material")] none
      [Xml.elem "metadata" [] none
          (Xml.elem "name" [] none
              [Xml.elem "brand" [] (popBrand self.metadata) [] none,
               Xml.elem "material" [] (popMaterial self.metadata) [] none,
               Xml.elem "color" [] (popColor self.metadata) [] none] none
            :: (metadataRest self.metadata).map
                (fun kv => Xml.elem kv.1 [] kv.2 [] none)) none,
       Xml.elem "properties" [] none
          (self.properties.map (fun kv => Xml.elem kv.1 [] kv.2 [] none))
          none,
       Xml.elem "settings" [] none
          (self.settings.filterMap (fun p => addSettingElement p.1 p.2))
          none] none) 0)) = [] := by
    rw [hMA]
    exact filter_none_of _ _ (fun e he => by
      rw [washed_map_tags _ "setting" 2 _ htags e he]
      decide)
  -- the global settings walk restores the settings dict
  obtain ⟨reg', gsv', hgw⟩ := globalWalk_washed_settings self.settings
    (Profile.mk fresh.id (popMaterial self.metadata)
      ([("type", some "material"), ("status", some "unknown"),
        ("brand", popBrand self.metadata),
        ("material", popMaterial self.metadata),
        ("color_name", popColor self.metadata)]
        ++ metadataRest self.metadata)
      self.properties "fdmprinter" fresh.settings fresh.readOnly fresh.dirty,
     reg2, []) hfro hsv
  have hsetFold : self.settings.foldl (fun m kv => mupdate m kv.1 kv.2)
      fresh.settings = self.settings := by
    rw [hfrs, mupdate_foldl_append self.settings [] (fun kv _ => rfl) hsnd]
    exact List.nil_append _
  dsimp only at hgw
  rw [hsetFold] at hgw
  simp only [List.map_map, Function.comp_def] at hgw
  refine ⟨Profile.mk fresh.id (popMaterial self.metadata)
    ([("type", some "material"), ("status", some "unknown"),
      ("brand", popBrand self.metadata),
      ("material", popMaterial self.metadata),
      ("color_name", popColor self.metadata)]
      ++ metadataRest self.metadata)
    self.properties "fdmprinter" self.settings fresh.readOnly false,
    reg', ?_, rfl, rfl, rfl⟩
  rcases Option.isSome_iff_exists.mp hdefs2 with ⟨dv, hdv⟩
  simp only [deserialize]
  rw [hwalk2, hprops2, hSE2, hMA2, hdv,
    floatCheck_ok self.properties "diameter" hpv hfloatD,
    floatCheck_ok self.properties "density" hpv hfloatE]
  simp only [Bind.bind, Except.bind]
  dsimp only
  rw [hdescNone]
  simp only [Bool.false_eq_true, if_false]
  rw [hadhNone]
  simp only [Bool.false_eq_true, if_false, Option.isNone_some]
  rw [globalWalk_setLastTail, indentXmlList_eq_map, hstc]
  simp only [globalWalk, List.map_map, Function.comp_def]
  rw [hgw]
  simp only [machinesWalk, List.foldl_nil, pure, Except.pure]

/-- Looking up any non-transient key in the reassembled metadata gives the
original value, provided brand/material/color_name were present. -/
theorem mlookup_roundtrip_metadata (md : List (String × Option String))
    (hbrand : (mlookup md "brand").isSome = true)
    (hmat : (mlookup md "material").isSome = true)
    (hcol : (mlookup md "color_name").isSome = true)
    (k : String) (h1 : ¬k = "status") (h2 : ¬k = "variant")
    (h3 : ¬k = "type") (h4 : ¬k = "base_file") :
    mlookup ([("type", some "material"), ("status", some "unknown"),
      ("brand", popBrand md), ("material", popMaterial md),
      ("color_name", popColor md)] ++ metadataRest md) k
      = mlookup md k := by
  by_cases hb : k = "brand"
  · subst hb
    rcases Option.isSome_iff_exists.mp hbrand with ⟨w, hw⟩
    have hpb : popBrand md = w := by
      unfold popBrand
      rw [mlookup_popTransient md "brand" (by decide) (by decide) (by decide)
        (by decide), hw]
      rfl
    rw [mlookup_append]
    have hA : mlookup [("type", (some "material" : Option String)),
        ("status", some "unknown"), ("brand", popBrand md),
        ("material", popMaterial md), ("color_name", popColor md)] "brand"
        = some (popBrand md) := rfl
    rw [hA, hpb, hw]
  · by_cases hm : k = "material"
    · subst hm
      rcases Option.isSome_iff_exists.mp hmat with ⟨w, hw⟩
      have hpm : popMaterial md = w := by
        unfold popMaterial
        rw [mlookup_eraseKey_ne _ _ _ (by decide),
          mlookup_popTransient md "material" (by decide) (by decide)
            (by decide) (by decide), hw]
        rfl
      rw [mlookup_append]
      have hA : mlookup [("type", (some "material" : Option String)),
          ("status", some "unknown"), ("brand", popBrand md),
          ("material", popMaterial md), ("color_name", popColor md)] "material"
          = some (popMaterial md) := rfl
      rw [hA, hpm, hw]
    · by_cases hc : k = "color_name"
      · subst hc
        rcases Option.isSome_iff_exists.mp hcol with ⟨w, hw⟩
        have hpc : popColor md = w := by
          unfold popColor
          rw [mlookup_eraseKey_ne _ _ _ (by decide),
            mlookup_eraseKey_ne _ _ _ (by decide),
            mlookup_popTransient md "color_name" (by decide) (by decide)
              (by decide) (by decide), hw]
          rfl
        rw [mlookup_append]
        have hA : mlookup [("type", (some "material" : Option String)),
            ("status", some "unknown"), ("brand", popBrand md),
            ("material", popMaterial md), ("color_name", popColor md)]
            "color_name" = some (popColor md) := rfl
        rw [hA, hpc, hw]
      · have g1 : ¬"type" = k := fun he => h3 he.symm
        have g2 : ¬"status" = k := fun he => h1 he.symm
        have g3 : ¬"brand" = k := fun he => hb he.symm
        have g4 : ¬"material" = k := fun he => hm he.symm
        have g5 : ¬"color_name" = k := fun he => hc he.symm
        rw [mlookup_append]
        have hA : mlookup [("type", (some "material" : Option String)),
            ("status", some "unknown"), ("brand", popBrand md),
            ("material", popMaterial md), ("color_name", popColor md)] k
            = none := by
          simp [mlookup, g1, g2, g3, g4, g5]
        rw [hA, mlookup_metadataRest md k h1 h2 h3 h4 hb hm hc]

/-- C1: for a family with no machine or hotend specializations (a root
profile already targeting `fdmprinter`, with every registered GUID sibling
doing the same) and well-formed dictionaries, deserializing the document
written by `serialize` reconstructs a profile whose metadata agrees with
the original on every key other than the transient `status`, `variant`,
`type` and `base_file`, and whose properties and global setting values are
identical to the original's. -/
theorem c1_roundtrip_no_specializations
    (defs defs2 : List (String × String)) (reg reg2 : List Profile)
    (self fresh : Profile)
    (hguard : baseFileGuard self = false)
    (hfdm : self.definitionId = "fdmprinter")
    (hfam : ∀ c ∈ findByGUID reg (metaGetD self "GUID" none),
      c.definitionId = "fdmprinter")
    (hmdnd : keysNodup self.metadata)
    (hmdv : ∀ kv ∈ self.metadata, ∃ s, kv.2 = some s ∧ s ≠ "")
    (hmdname : ∀ kv ∈ self.metadata, ¬kv.1 = "name")
    (hbrand : (mlookup self.metadata "brand").isSome = true)
    (hmat : (mlookup self.metadata "material").isSome = true)
    (hcol : (mlookup self.metadata "color_name").isSome = true)
    (hdesc : (mlookup self.metadata "description").isSome = true)
    (hadh : (mlookup self.metadata "adhesion_info").isSome = true)
    (hpnd : keysNodup self.properties)
    (hpv : ∀ kv ∈ self.properties, ∃ s, kv.2 = some s ∧ s ≠ "")
    (hfloatD : ∀ s, mlookup self.properties "diameter" = some (some s) →
      pyFloatOk s = true)
    (hfloatE : ∀ s, mlookup self.properties "density" = some (some s) →
      pyFloatOk s = true)
    (hsnd : keysNodup self.settings)
    (hsv : ∀ kv ∈ self.settings, ∃ s, kv.2 = some s ∧ ¬s = "" ∧
      (findKey materialSettingMap kv.1).isSome = true)
    (hfrm : fresh.metadata = []) (hfrp : fresh.properties = [])
    (hfrs : fresh.settings = []) (hfro : fresh.readOnly = false)
    (hdefs2 : (mlookup defs2 "fdmprinter").isSome = true) :
    ∃ doc out reg',
      serialize defs reg self = .ok doc ∧
      deserialize defs2 reg2 fresh (etRoundTrip doc) = .ok (out, reg') ∧
      (∀ k, ¬k = "status" → ¬k = "variant" → ¬k = "type" → ¬k = "base_file" →
        mlookup out.metadata k = mlookup self.metadata k) ∧
      out.properties = self.properties ∧
      out.settings = self.settings := by
  have hser : serialize defs reg self = .ok (indentXml (Xml.elem "fdmmaterial"
      [("xmlns", "http://www.ultimaker.com/material")] none
      [Xml.elem "metadata" [] none
          (Xml.elem "name" [] none
              [Xml.elem "brand" [] (popBrand self.metadata) [] none,
               Xml.elem "material" [] (popMaterial self.metadata) [] none,
               Xml.elem "color" [] (popColor self.metadata) [] none] none
            :: (metadataRest self.metadata).map
                (fun kv => Xml.elem kv.1 [] kv.2 [] none)) none,
       Xml.elem "properties" [] none
          (self.properties.map (fun kv => Xml.elem kv.1 [] kv.2 [] none))
          none,
       Xml.elem "settings" [] none
          (self.settings.filterMap (fun p => addSettingElement p.1 p.2))
          none] none) 0) := by
    unfold serialize
    rw [hguard]
    rw [serializeBody_no_machines defs reg self
      (fun kv hkv => (hmdv kv hkv).imp (fun s hs => hs.1))
      (fun kv hkv => (hpv kv hkv).imp (fun s hs => hs.1)) hfam]
    simp [hfdm]
  obtain ⟨out, reg', hdes, hmd, hpr, hst⟩ := deserialize_washed defs2 reg2
    self fresh hmdnd hmdv hmdname hbrand hmat hcol hdesc hadh hpnd hpv
    hfloatD hfloatE hsnd hsv hfrm hfrp hfrs hfro hdefs2
  refine ⟨_, out, reg', hser, hdes, ?_, hpr, hst⟩
  intro k h1 h2 h3 h4
  rw [hmd]
  exact mlookup_roundtrip_metadata self.metadata hbrand hmat hcol k h1 h2 h3 h4

def c1Defs : List (String × String) := [("fdmprinter", "def")]

def c1Fresh : Profile :=
  { id := "new1", name := none, metadata := [], properties := [],
    definitionId := "", settings := [], readOnly := false, dirty := false }

/-- A root profile that is perfectly serializable but carries no
`description` metadata entry. -/
def c1Bad : Profile :=
  { id := "mat1", name := some "PLA",
    metadata := [("GUID", some "g-1"), ("brand", some "BrandX"),
      ("material", some "PLA"), ("color_name", some "Blue"),
      ("adhesion_info", some "none")],
    properties := [("diameter", some "2.85")],
    definitionId := "fdmprinter",
    settings := [("material_print_temperature", some "210")],
    readOnly := false, dirty := false }

/-- A fully well-formed root profile for the round-trip. -/
def c1Good : Profile :=
  { id := "mat2", name := some "PLA",
    metadata := [("GUID", some "g-2"), ("brand", some "BrandX"),
      ("material", some "PLA"), ("color_name", some "Blue"),
      ("description", some "desc"), ("adhesion_info", some "none")],
    properties := [("diameter", some "2.85"), ("density", some "1.24")],
    definitionId := "fdmprinter",
    settings := [("material_print_temperature", some "210")],
    readOnly := false, dirty := false }

/-- The round trip is not the identity on non-transient metadata in
general: a profile without a `description` entry serializes and
deserializes successfully, yet the reconstructed profile disagrees with
the original on the non-transient key `description` (deserialize defaults
it to the empty string). -/
theorem c1_counterexample :
    (match serialize c1Defs [] c1Bad with
     | .ok doc =>
       match deserialize c1Defs [] c1Fresh (etRoundTrip doc) with
       | .ok (out, _) => decide (mlookup out.metadata "description"
           = mlookup c1Bad.metadata "description")
       | .error _ => true
     | .error _ => true) = false := by decide

theorem c1_witness :
    ∃ doc out reg',
      serialize c1Defs [] c1Good = .ok doc ∧
      deserialize c1Defs [] c1Fresh (etRoundTrip doc) = .ok (out, reg') ∧
      (∀ k, ¬k = "status" → ¬k = "variant" → ¬k = "type" → ¬k = "base_file" →
        mlookup out.metadata k = mlookup c1Good.metadata k) ∧
      out.properties = c1Good.properties ∧
      out.settings = c1Good.settings :=
  c1_roundtrip_no_specializations c1Defs c1Defs [] [] c1Good c1Fresh
    (by decide) rfl (by decide) (by decide)
    (by intro kv hkv; fin_cases hkv <;> exact ⟨_, rfl, by decide⟩)
    (by decide) (by decide) (by decide) (by decide) (by decide) (by decide)
    (by decide)
    (by intro kv hkv; fin_cases hkv <;> exact ⟨_, rfl, by decide⟩)
    (fun s hs => by
      have h2 : (some (some "2.85") : Option (Option String))
          = some (some s) := hs
      simp only [Option.some.injEq] at h2
      rw [← h2]
      decide)
    (fun s hs => by
      have h2 : (some (some "1.24") : Option (Option String))
          = some (some s) := hs
      simp only [Option.some.injEq] at h2
      rw [← h2]
      decide)
    (by decide)
    (by intro kv hkv; fin_cases hkv <;> exact ⟨_, rfl, by decide, by decide⟩)
    rfl rfl rfl rfl (by decide)
